import Mathlib

/-!
Verification of the bank-simulator's simulation engine.

Shallow embedding of the repository's core:
* `src/app/database.py` — ledger rows (`BalanceEntry`), `get_balance`,
  `get_balance_at_timestamp`;
* `src/app/simulation.py` — propagators (`ManualEntry`, `Topup`, `SweepOut`)
  and the worklist scheduler `SimulationRunner`;
* `src/app/routes.py` — the ledger-mutating API route effects.

Modelling conventions:
* timestamps are integers counting seconds (Python `datetime`); the
  30-minute wire lag `timedelta(minutes=30)` is `1800` seconds and a day is
  `86400` seconds;
* monetary amounts are rationals (the Python source stores binary floats;
  the arithmetic performed by the engine — `+`, `-`, `min`, `abs`,
  comparisons — is modelled exactly over `ℚ`, and the source's `1e-9`
  tolerance is the rational `1 / 10^9`);
* the scheduler's unbounded `while` loop is modelled with explicit fuel:
  `simulateFuel` returns `some ledger` when the worklist empties within the
  given fuel and `none` otherwise.
-/

namespace BankSim

/-- A row of the `balance_entries` table (`database.py`, class `BalanceEntry`).
The autoincrement `id` column is not modelled; no verified property refers
to it. -/
structure BalanceEntry where
  account_id : ℕ
  amount : ℚ
  currency : String
  description : String
  effective_time : ℤ
  rule_id : Option ℕ
deriving DecidableEq

abbrev Ledger := List BalanceEntry

/-- The optional `rule_id` filter of `get_balance` /
`get_balance_at_timestamp`: absent means no constraint; present means the
row's `rule_id` column must equal it (a SQL `NULL` never equals a value). -/
def ruleFilterMatches (rid : Option ℕ) (e : BalanceEntry) : Bool :=
  match rid with
  | none => true
  | some r => e.rule_id == some r

/-- `database.get_balance`: sum of `amount` over rows matching
`(account_id, currency, effective_time ≤ timestamp)` and, when supplied,
`rule_id`; the SQL `coalesce(sum(...), 0)` makes the empty sum `0`. -/
def get_balance (l : Ledger) (account_id : ℕ) (timestamp : ℤ) (currency : String)
    (rule_id : Option ℕ) : ℚ :=
  ((l.filter (fun e =>
      e.account_id == account_id && e.currency == currency &&
      decide (e.effective_time ≤ timestamp) && ruleFilterMatches rule_id e)).map
    (fun e => e.amount)).sum

/-- `database.get_balance_at_timestamp`: as `get_balance` but filtering on
`effective_time == timestamp`. -/
def get_balance_at_timestamp (l : Ledger) (account_id : ℕ) (timestamp : ℤ)
    (currency : String) (rule_id : Option ℕ) : ℚ :=
  ((l.filter (fun e =>
      e.account_id == account_id && e.currency == currency &&
      decide (e.effective_time = timestamp) && ruleFilterMatches rule_id e)).map
    (fun e => e.amount)).sum

/-- The common constructor fields of `Topup` and `SweepOut`
(`simulation.py`; the two classes carry identical fields). -/
structure RuleParams where
  rule_id : ℕ
  target_account_id : ℕ
  source_account_id : ℕ
  timestamp : ℤ
  currency : String
  threshold : ℚ
  target_amount : ℚ
deriving DecidableEq

/-- `self.funding_timestamp = timestamp + timedelta(minutes=30)`. -/
def RuleParams.funding_timestamp (d : RuleParams) : ℤ := d.timestamp + 1800

def topupDescription (d : RuleParams) : String :=
  toString d.source_account_id ++ " -> " ++ toString d.target_account_id ++ " Topup"

def sweepOutDescription (d : RuleParams) : String :=
  toString d.source_account_id ++ " -> " ++ toString d.target_account_id ++ " Sweep Out"

/-- `Topup.propagate` (`simulation.py` lines 66–102).  Returns the list of
written entries together with the ledger extended by exactly those
entries (`session.add` + `flush`). -/
def topupPropagate (d : RuleParams) (l : Ledger) : List BalanceEntry × Ledger :=
  let target_account_balance :=
    get_balance l d.target_account_id d.timestamp d.currency none
  let prior_topup_amount :=
    get_balance_at_timestamp l d.target_account_id d.funding_timestamp d.currency
      (some d.rule_id)
  let balance_diff : ℚ :=
    if target_account_balance > d.threshold then
      -(min prior_topup_amount (target_account_balance - d.threshold))
    else if target_account_balance < d.threshold then
      d.target_amount - target_account_balance - prior_topup_amount
    else 0
  if balance_diff = 0 then ([], l)
  else
    let source_balance_entry : BalanceEntry :=
      ⟨d.source_account_id, -balance_diff, d.currency, topupDescription d,
        d.timestamp, some d.rule_id⟩
    let target_balance_entry : BalanceEntry :=
      ⟨d.target_account_id, balance_diff, d.currency, topupDescription d,
        d.funding_timestamp, some d.rule_id⟩
    ([source_balance_entry, target_balance_entry],
      l ++ [source_balance_entry, target_balance_entry])

/-- `SweepOut.propagate` (`simulation.py` lines 121–163). -/
def sweepOutPropagate (d : RuleParams) (l : Ledger) : List BalanceEntry × Ledger :=
  let source_balance :=
    get_balance l d.source_account_id d.timestamp d.currency none
  let prior_sweep_amount :=
    get_balance_at_timestamp l d.source_account_id d.funding_timestamp d.currency
      (some d.rule_id)
  let balance_diff : ℚ :=
    if source_balance > d.threshold then
      -(source_balance - d.target_amount + prior_sweep_amount)
    else if source_balance < d.threshold ∧ prior_sweep_amount < 0 then
      min (-prior_sweep_amount) (d.threshold - source_balance)
    else 0
  if |balance_diff| < 1 / 1000000000 then ([], l)
  else
    let source_balance_entry : BalanceEntry :=
      ⟨d.source_account_id, balance_diff, d.currency, sweepOutDescription d,
        d.funding_timestamp, some d.rule_id⟩
    let target_balance_entry : BalanceEntry :=
      ⟨d.target_account_id, -balance_diff, d.currency, sweepOutDescription d,
        d.funding_timestamp, some d.rule_id⟩
    ([source_balance_entry, target_balance_entry],
      l ++ [source_balance_entry, target_balance_entry])

/-- The three propagator classes of `simulation.py` as a tagged variant. -/
inductive Propagator where
  | manualEntry (account_id : ℕ) (amount : ℚ) (currency : String) (timestamp : ℤ)
      (description : String)
  | topup (d : RuleParams)
  | sweepOut (d : RuleParams)
deriving DecidableEq

/-- `ManualEntry.propagate`: writes one entry with `rule_id = null`. -/
def manualEntryPropagate (account_id : ℕ) (amount : ℚ) (currency : String)
    (timestamp : ℤ) (description : String) (l : Ledger) :
    List BalanceEntry × Ledger :=
  let balance_entry : BalanceEntry :=
    ⟨account_id, amount, currency, description, timestamp, none⟩
  ([balance_entry], l ++ [balance_entry])

def Propagator.propagate : Propagator → Ledger → List BalanceEntry × Ledger
  | .manualEntry a amt c ts desc, l => manualEntryPropagate a amt c ts desc l
  | .topup d, l => topupPropagate d l
  | .sweepOut d, l => sweepOutPropagate d l

/-- `listening_points()` of each class: `ManualEntry` watches nothing,
`Topup` watches `(target_account_id, timestamp)`, `SweepOut` watches
`(source_account_id, timestamp)`. -/
def Propagator.listening_points : Propagator → List (ℕ × ℤ)
  | .manualEntry _ _ _ _ _ => []
  | .topup d => [(d.target_account_id, d.timestamp)]
  | .sweepOut d => [(d.source_account_id, d.timestamp)]

/-!
## Scheduler (`SimulationRunner`, `simulation.py` lines 166–228)

The Python runner keeps a dict `account_id → list of (timestamp, propagator)`
built by appending in `add_propagator` order.  It is modelled as one flat
list in the same insertion order; the per-account lookup is a filter, which
preserves the per-account ordering of the dict's lists.
-/

abbrev Listeners := List (ℕ × ℤ × Propagator)

/-- `self.listeners.get(account_id, [])`. -/
def accountListeners (listeners : Listeners) (account_id : ℕ) :
    List (ℤ × Propagator) :=
  (listeners.filter (fun x => x.1 == account_id)).map (fun x => x.2)

/-- The inner loop of `simulate`: the listeners re-enqueued for one new
entry, in order — those registered under the entry's account whose
listening timestamp satisfies `new_entry.effective_time <= timestamp`. -/
def enqueueForEntry (listeners : Listeners) (e : BalanceEntry) : List Propagator :=
  ((accountListeners listeners e.account_id).filter
      (fun tp => decide (e.effective_time ≤ tp.1))).map (fun tp => tp.2)

/-- All listeners re-enqueued for the batch of entries one `propagate()`
call returned, in the order the Python double loop appends them. -/
def enqueueFromEntries (listeners : Listeners) (es : List BalanceEntry) :
    List Propagator :=
  (es.map (enqueueForEntry listeners)).flatten

/-- The listener index built by the `add_propagator` calls for a propagator
list, in order. -/
def buildListeners (ps : List Propagator) : Listeners :=
  (ps.map (fun p => p.listening_points.map (fun pt => (pt.1, pt.2, p)))).flatten

/-- `SimulationRunner.simulate`: pop the front of the FIFO worklist, run its
`propagate`, append the re-enqueued listeners, repeat until the worklist is
empty.  The Python loop is unbounded; `fuel` bounds the modelled iteration
count, `none` meaning the loop was still running when fuel ran out. -/
def simulateFuel (listeners : Listeners) :
    ℕ → List Propagator → Ledger → Option Ledger
  | _, [], l => some l
  | 0, _ :: _, _ => none
  | fuel + 1, p :: rest, l =>
      simulateFuel listeners fuel
        (rest ++ enqueueFromEntries listeners (p.propagate l).1)
        (p.propagate l).2

/-!
## Rule expansion (`SimulationRunner.__init__`, `simulation.py` lines 166–206)
-/

/-- A row of the `funding_rules` table. -/
structure FundingRule where
  id : ℕ
  rule_type : String
  target_account_id : ℕ
  source_account_id : ℕ
  time_of_day : String
  currency : String
  threshold : ℚ
  target_amount : ℚ
deriving DecidableEq

/-- Split a character list at every `':'` (the literal separators of the
`"%H:%M:%S"` format). -/
def splitOnColon (cs : List Char) : List (List Char) :=
  match cs with
  | [] => [[]]
  | ch :: rest =>
      if ch = ':' then [] :: splitOnColon rest
      else
        match splitOnColon rest with
        | [] => [[ch]]
        | g :: gs => (ch :: g) :: gs

/-- One `:`-separated field of a `strptime(_, "%H:%M:%S")` parse: one or two
ASCII digits whose value is at most `hi`.  (`%H` admits 0–23; `%M` 0–59;
the `%S` regex also admits 60–61 but the `datetime` constructor then raises
`ValueError`, which the caller treats identically to a parse failure, so
the net bound for seconds is also 59.) -/
def parseTimeField (cs : List Char) (hi : ℕ) : Option ℕ :=
  if (cs.length == 1 || cs.length == 2) && cs.all (fun ch => ch.isDigit) then
    let v := cs.foldl (fun a ch => a * 10 + (ch.toNat - 48)) 0
    if v ≤ hi then some v else none
  else none

/-- `datetime.strptime(time_of_day, "%H:%M:%S")`, reduced to the
second-of-day it denotes; `none` models the `ValueError` path. -/
def parseTimeOfDay (s : String) : Option ℤ :=
  match splitOnColon s.toList with
  | [hs, ms, ss] =>
      match parseTimeField hs 23, parseTimeField ms 59, parseTimeField ss 59 with
      | some h, some m, some sec => some ((h : ℤ) * 3600 + (m : ℤ) * 60 + (sec : ℤ))
      | _, _, _ => none
  | _ => none

/-- The constructor dispatch on `rule.rule_type`: `TOPUP` and
`BACKUP_FUNDING` build a `Topup`, `SWEEP_OUT` builds a `SweepOut`, anything
else is skipped (`continue`). -/
def ruleToPropagator (r : FundingRule) (ts : ℤ) : Option Propagator :=
  if r.rule_type == "TOPUP" || r.rule_type == "BACKUP_FUNDING" then
    some (.topup ⟨r.id, r.target_account_id, r.source_account_id, ts, r.currency,
      r.threshold, r.target_amount⟩)
  else if r.rule_type == "SWEEP_OUT" then
    some (.sweepOut ⟨r.id, r.target_account_id, r.source_account_id, ts, r.currency,
      r.threshold, r.target_amount⟩)
  else none

/-- The day loop of `SimulationRunner.__init__`: for each date from
`start.date()` to `end.date()` and each rule (days outer, rules inner, in
order), combine the date with the rule's `time_of_day` and keep the
propagator when `start <= timestamp <= end`.  A rule whose `time_of_day`
fails to parse is skipped here; in the source that `strptime` would raise,
but every stored rule passed the create-route validation. -/
def expandRules (start_datetime end_datetime : ℤ) (rules : List FundingRule) :
    List Propagator :=
  let d0 := Int.fdiv start_datetime 86400
  let d1 := Int.fdiv end_datetime 86400
  (((List.range (d1 - d0 + 1).toNat).map (fun i => d0 + (i : ℤ))).map (fun d =>
    rules.filterMap (fun r =>
      match parseTimeOfDay r.time_of_day with
      | none => none
      | some tod =>
          let timestamp := d * 86400 + tod
          if start_datetime ≤ timestamp ∧ timestamp ≤ end_datetime then
            ruleToPropagator r timestamp
          else none))).flatten

/-- A freshly constructed `SimulationRunner(start, end, session)`:
queue and listener index of the expanded propagators. -/
def runnerQueue (start_datetime end_datetime : ℤ) (rules : List FundingRule) :
    List Propagator :=
  expandRules start_datetime end_datetime rules

def runnerListeners (start_datetime end_datetime : ℤ) (rules : List FundingRule) :
    Listeners :=
  buildListeners (expandRules start_datetime end_datetime rules)

/-!
## API route effects (`routes.py`)

Only the ledger-mutating behaviour is embedded.  Database state visible to
a route — the stored rules, the account-id set, the optional metadata
window — is passed in as parameters.
-/

/-- The validated request body of `POST /simulations/{s}/funding-rules`
(`FundingRuleCreate` in `routes.py`). -/
structure FundingRuleCreate where
  rule_type : String
  target_account_id : ℕ
  source_account_id : ℕ
  time_of_day : String
  currency : String
  threshold : ℚ
  target_amount : ℚ
deriving DecidableEq

/-- Outcome of the validation and storage phase of `create_funding_rule`
(`routes.py` lines 272–319).  On `unprocessable` (HTTP 422) and `notFound`
(HTTP 404) the route returns before/without adding a rule, so nothing is
stored. -/
inductive CreateRuleOutcome where
  | unprocessable (msg : String)
  | notFound (msg : String)
  | created (rule : FundingRule)
deriving DecidableEq

/-- `create_funding_rule` up to and including `session.add(rule)`, with the
checks in source order: time format; rule-type literal; distinct accounts;
`BACKUP_FUNDING` coercion of `threshold`/`target_amount` to `0`;
`TOPUP` requires `target_amount ≥ threshold`; `SWEEP_OUT` requires
`target_amount ≤ threshold`; then the two account-existence lookups. -/
def create_funding_rule (body : FundingRuleCreate) (accounts : List ℕ)
    (next_id : ℕ) : CreateRuleOutcome :=
  if (parseTimeOfDay body.time_of_day).isNone then
    .unprocessable "time_of_day must be in HH:MM:SS format"
  else if ¬(body.rule_type = "BACKUP_FUNDING" ∨ body.rule_type = "TOPUP" ∨
      body.rule_type = "SWEEP_OUT") then
    .unprocessable "rule_type must be BACKUP_FUNDING, TOPUP, or SWEEP_OUT"
  else if body.target_account_id = body.source_account_id then
    .unprocessable "Target and source accounts must be different"
  else
    let body' :=
      if body.rule_type = "BACKUP_FUNDING" then
        { body with threshold := 0, target_amount := 0 }
      else body
    if body'.rule_type = "TOPUP" ∧ body'.target_amount < body'.threshold then
      .unprocessable "target_amount must be >= threshold"
    else if body'.rule_type = "SWEEP_OUT" ∧ body'.target_amount > body'.threshold then
      .unprocessable "For SWEEP_OUT, target_amount (balance to leave) must be <= threshold (trigger level)"
    else if ¬ accounts.contains body'.target_account_id then
      .notFound "Target account not found"
    else if ¬ accounts.contains body'.source_account_id then
      .notFound "Source account not found"
    else
      .created ⟨next_id, body'.rule_type, body'.target_account_id,
        body'.source_account_id, body'.time_of_day, body'.currency,
        body'.threshold, body'.target_amount⟩

/-- Ledger effect of a successful `POST /funding-rules` after the rule is
stored (`routes.py` lines 321–326): if metadata exists, build a
`SimulationRunner` over *all* stored rules (the new one included) and run
it; no balance entry is deleted beforehand. -/
def create_funding_rule_run (rules : List FundingRule) (newRule : FundingRule)
    (meta : Option (ℤ × ℤ)) (fuel : ℕ) (l : Ledger) : Option Ledger :=
  match meta with
  | none => some l
  | some (s, e) =>
      simulateFuel (runnerListeners s e (rules ++ [newRule])) fuel
        (runnerQueue s e (rules ++ [newRule])) l

/-- Ledger effect of `POST /accounts/{id}/entries` (`routes.py` lines
407–442): build a runner over the stored rules and the metadata window
(`utcnow` twice when metadata is absent — passed here as `window`), add a
`ManualEntry` propagator, and simulate; no balance entry is deleted. -/
def create_entry_run (rules : List FundingRule) (window : ℤ × ℤ)
    (account_id : ℕ) (amount : ℚ) (currency : String) (timestamp : ℤ)
    (description : String) (fuel : ℕ) (l : Ledger) : Option Ledger :=
  let props := expandRules window.1 window.2 rules
  let manual : Propagator := .manualEntry account_id amount currency timestamp description
  simulateFuel (buildListeners (props ++ [manual])) fuel (props ++ [manual]) l

/-- Ledger effect of `DELETE /funding-rules/{rule_id}` (`routes.py` lines
330–355): delete the balance entries generated by *this* rule only, then,
if metadata exists, re-run a runner over the remaining rules. -/
def delete_funding_rule_run (remaining_rules : List FundingRule) (rule_id : ℕ)
    (meta : Option (ℤ × ℤ)) (fuel : ℕ) (l : Ledger) : Option Ledger :=
  let purged := l.filter (fun e => !(e.rule_id == some rule_id))
  match meta with
  | none => some purged
  | some (s, e) =>
      simulateFuel (runnerListeners s e remaining_rules) fuel
        (runnerQueue s e remaining_rules) purged

/-- Ledger effect of `DELETE /accounts/{account_id}`: `session.delete(acct)`
cascades to the account's balance entries
(`cascade="all, delete-orphan"` in `database.py`), removing every entry of
that account — manual and derived alike.  No resimulation follows. -/
def delete_account_run (account_id : ℕ) (l : Ledger) : Ledger :=
  l.filter (fun e => !(e.account_id == account_id))

/-!
### Seed data (`POST /simulations/{s}/seed`, `routes.py` lines 450–519)

Timestamps are seconds relative to the seeded window start
`2025-01-06T00:00:00`; account ids 1–5 and rule ids 1–4 in creation order.
-/

def seedInitialLedger : Ledger :=
  [⟨1, 500000, "USD", "Initial balance", 0, none⟩,
   ⟨2, 50000, "USD", "Initial balance", 0, none⟩,
   ⟨3, 30000, "USD", "Initial balance", 0, none⟩,
   ⟨4, 60000, "USD", "Initial balance", 0, none⟩,
   ⟨5, 15000, "USD", "Initial balance", 0, none⟩,
   ⟨2, -60000, "USD", "Wire payment - vendor", 86400 + 28800, none⟩,
   ⟨5, -18000, "USD", "Reimbursement payout", 86400 + 28800, none⟩,
   ⟨4, 50000, "USD", "SaaS revenue deposit", 2 * 86400 + 25200, none⟩,
   ⟨2, -30000, "USD", "Wire payment - rent", 3 * 86400 + 28800, none⟩,
   ⟨5, -20000, "USD", "Reimbursement batch", 3 * 86400 + 28800, none⟩,
   ⟨4, 40000, "USD", "SaaS revenue deposit", 4 * 86400 + 25200, none⟩]

def seedRules : List FundingRule :=
  [⟨1, "BACKUP_FUNDING", 2, 1, "09:00:00", "USD", 0, 0⟩,
   ⟨2, "BACKUP_FUNDING", 3, 1, "09:00:00", "USD", 0, 0⟩,
   ⟨3, "TOPUP", 5, 3, "10:00:00", "USD", 10000, 25000⟩,
   ⟨4, "SWEEP_OUT", 3, 4, "11:00:00", "USD", 80000, 50000⟩]

def seedWindow : ℤ × ℤ := (0, 4 * 86400 + 86399)

/-- Ledger effect of `POST /seed`: a fresh store with the canned accounts,
manual entries and rules, then one full simulation run. -/
def seed_run (fuel : ℕ) : Option Ledger :=
  simulateFuel (runnerListeners seedWindow.1 seedWindow.2 seedRules) fuel
    (runnerQueue seedWindow.1 seedWindow.2 seedRules) seedInitialLedger

/-!
## Conservation sums and reachability
-/

/-- `Σ amount` over entries with `rule_id ≠ null` in a given currency. -/
def derivedSum (c : String) (l : Ledger) : ℚ :=
  ((l.filter (fun e => e.rule_id.isSome && e.currency == c)).map
    (fun e => e.amount)).sum

/-- `Σ amount` over one rule's entries in a given currency. -/
def ruleCurrencySum (rid : ℕ) (c : String) (l : Ledger) : ℚ :=
  ((l.filter (fun e => e.rule_id == some rid && e.currency == c)).map
    (fun e => e.amount)).sum

/-- Ledger states reachable through successful ledger-mutating API calls.
`GET`/`PATCH` routes and account creation/rename do not touch balance
entries.  The stored-rule list, window metadata and account set visible to
each call are universally quantified, over-approximating any database
state. -/
inductive Reach : Ledger → Prop where
  | empty : Reach []
  | create_funding_rule_step {l l' : Ledger} (rules : List FundingRule)
      (newRule : FundingRule) (meta : Option (ℤ × ℤ)) (fuel : ℕ) :
      Reach l → create_funding_rule_run rules newRule meta fuel l = some l' →
      Reach l'
  | create_entry_step {l l' : Ledger} (rules : List FundingRule) (window : ℤ × ℤ)
      (account_id : ℕ) (amount : ℚ) (currency : String) (timestamp : ℤ)
      (description : String) (fuel : ℕ) :
      Reach l →
      create_entry_run rules window account_id amount currency timestamp
        description fuel l = some l' →
      Reach l'
  | delete_funding_rule_step {l l' : Ledger} (remaining_rules : List FundingRule)
      (rule_id : ℕ) (meta : Option (ℤ × ℤ)) (fuel : ℕ) :
      Reach l → delete_funding_rule_run remaining_rules rule_id meta fuel l = some l' →
      Reach l'
  | delete_account_step {l : Ledger} (account_id : ℕ) :
      Reach l → Reach (delete_account_run account_id l)
  | seed_step {l l' : Ledger} (fuel : ℕ) :
      Reach l → seed_run fuel = some l' → Reach l'

/-- As `Reach`, but excluding `DELETE /accounts/{id}` (the one mutation that
can cascade-delete a single side of a rule-generated pair). -/
inductive ReachNoDelete : Ledger → Prop where
  | empty : ReachNoDelete []
  | create_funding_rule_step {l l' : Ledger} (rules : List FundingRule)
      (newRule : FundingRule) (meta : Option (ℤ × ℤ)) (fuel : ℕ) :
      ReachNoDelete l → create_funding_rule_run rules newRule meta fuel l = some l' →
      ReachNoDelete l'
  | create_entry_step {l l' : Ledger} (rules : List FundingRule) (window : ℤ × ℤ)
      (account_id : ℕ) (amount : ℚ) (currency : String) (timestamp : ℤ)
      (description : String) (fuel : ℕ) :
      ReachNoDelete l →
      create_entry_run rules window account_id amount currency timestamp
        description fuel l = some l' →
      ReachNoDelete l'
  | delete_funding_rule_step {l l' : Ledger} (remaining_rules : List FundingRule)
      (rule_id : ℕ) (meta : Option (ℤ × ℤ)) (fuel : ℕ) :
      ReachNoDelete l →
      delete_funding_rule_run remaining_rules rule_id meta fuel l = some l' →
      ReachNoDelete l'
  | seed_step {l l' : Ledger} (fuel : ℕ) :
      ReachNoDelete l → seed_run fuel = some l' → ReachNoDelete l'

/-!
## Spec-side delta formulas (§4.2.2 / §4.2.3 of the specification)

Written from the specification's words, to be compared against the source
translations `topupPropagate` / `sweepOutPropagate`.
-/

/-- The Δ of spec §4.2.2 step 3. -/
def topupDeltaSpec (target_balance prior threshold target_amount : ℚ) : ℚ :=
  if target_balance > threshold then -(min prior (target_balance - threshold))
  else if target_balance < threshold then target_amount - target_balance - prior
  else 0

/-- The Δ of spec §4.2.3 step 3. -/
def sweepOutDeltaSpec (source_balance prior threshold target_amount : ℚ) : ℚ :=
  if source_balance > threshold then -(source_balance - target_amount + prior)
  else if source_balance < threshold ∧ prior < 0 then
    min (-prior) (threshold - source_balance)
  else 0

/-- The balance values a rule propagator reads: `(get_balance …,
get_balance_at_timestamp …)` as issued by its `propagate()`; a
`ManualEntry` reads nothing. -/
def balanceInputs (p : Propagator) (l : Ledger) : ℚ × ℚ :=
  match p with
  | .manualEntry _ _ _ _ _ => (0, 0)
  | .topup d =>
      (get_balance l d.target_account_id d.timestamp d.currency none,
       get_balance_at_timestamp l d.target_account_id d.funding_timestamp d.currency
         (some d.rule_id))
  | .sweepOut d =>
      (get_balance l d.source_account_id d.timestamp d.currency none,
       get_balance_at_timestamp l d.source_account_id d.funding_timestamp d.currency
         (some d.rule_id))

/-!
## Helper lemmas
-/

theorem get_balance_append (l1 l2 : Ledger) (a : ℕ) (ts : ℤ) (c : String)
    (rid : Option ℕ) :
    get_balance (l1 ++ l2) a ts c rid = get_balance l1 a ts c rid + get_balance l2 a ts c rid := by
  simp [get_balance, List.filter_append]

theorem get_balance_at_timestamp_append (l1 l2 : Ledger) (a : ℕ) (ts : ℤ)
    (c : String) (rid : Option ℕ) :
    get_balance_at_timestamp (l1 ++ l2) a ts c rid =
      get_balance_at_timestamp l1 a ts c rid + get_balance_at_timestamp l2 a ts c rid := by
  simp [get_balance_at_timestamp, List.filter_append]

theorem derivedSum_append (c : String) (l1 l2 : Ledger) :
    derivedSum c (l1 ++ l2) = derivedSum c l1 + derivedSum c l2 := by
  simp [derivedSum, List.filter_append]

theorem ruleCurrencySum_append (rid : ℕ) (c : String) (l1 l2 : Ledger) :
    ruleCurrencySum rid c (l1 ++ l2) = ruleCurrencySum rid c l1 + ruleCurrencySum rid c l2 := by
  simp [ruleCurrencySum, List.filter_append]

/-- `topupPropagate` is literally the spec-side case analysis: Δ as in spec
§4.2.2 step 3; nothing when Δ = 0; otherwise the `(source, −Δ, timestamp)`
and `(target, +Δ, timestamp+30min)` pair, appended and returned. -/
theorem topupPropagate_eq (d : RuleParams) (l : Ledger) :
    topupPropagate d l =
      (let tb := get_balance l d.target_account_id d.timestamp d.currency none
       let pr := get_balance_at_timestamp l d.target_account_id (d.timestamp + 1800)
         d.currency (some d.rule_id)
       let bd := topupDeltaSpec tb pr d.threshold d.target_amount
       if bd = 0 then ([], l)
       else
         ([⟨d.source_account_id, -bd, d.currency, topupDescription d, d.timestamp,
             some d.rule_id⟩,
           ⟨d.target_account_id, bd, d.currency, topupDescription d, d.timestamp + 1800,
             some d.rule_id⟩],
          l ++ [⟨d.source_account_id, -bd, d.currency, topupDescription d, d.timestamp,
             some d.rule_id⟩,
           ⟨d.target_account_id, bd, d.currency, topupDescription d, d.timestamp + 1800,
             some d.rule_id⟩])) := rfl

/-- `sweepOutPropagate` as the spec-side case analysis: Δ as in spec §4.2.3
step 3; nothing when |Δ| < 1e-9; otherwise the pair `(source, Δ)`,
`(target, −Δ)`, both at `timestamp+30min`. -/
theorem sweepOutPropagate_eq (d : RuleParams) (l : Ledger) :
    sweepOutPropagate d l =
      (let sb := get_balance l d.source_account_id d.timestamp d.currency none
       let pr := get_balance_at_timestamp l d.source_account_id (d.timestamp + 1800)
         d.currency (some d.rule_id)
       let bd := sweepOutDeltaSpec sb pr d.threshold d.target_amount
       if |bd| < 1 / 1000000000 then ([], l)
       else
         ([⟨d.source_account_id, bd, d.currency, sweepOutDescription d, d.timestamp + 1800,
             some d.rule_id⟩,
           ⟨d.target_account_id, -bd, d.currency, sweepOutDescription d, d.timestamp + 1800,
             some d.rule_id⟩],
          l ++ [⟨d.source_account_id, bd, d.currency, sweepOutDescription d,
             d.timestamp + 1800, some d.rule_id⟩,
           ⟨d.target_account_id, -bd, d.currency, sweepOutDescription d, d.timestamp + 1800,
             some d.rule_id⟩])) := rfl

/-- Every `propagate()` only appends: the output ledger is the input ledger
followed by exactly the returned entries. -/
theorem propagate_snd_eq_append (p : Propagator) (l : Ledger) :
    (p.propagate l).2 = l ++ (p.propagate l).1 := by
  cases p with
  | manualEntry a amt c ts desc => rfl
  | topup d =>
      rw [Propagator.propagate, topupPropagate_eq]
      dsimp only
      split_ifs <;> simp
  | sweepOut d =>
      rw [Propagator.propagate, sweepOutPropagate_eq]
      dsimp only
      split_ifs <;> simp

theorem simulateFuel_nil (L : Listeners) (n : ℕ) (l : Ledger) :
    simulateFuel L n [] l = some l := by
  cases n <;> rfl

theorem simulateFuel_zero_cons (L : Listeners) (p : Propagator)
    (q : List Propagator) (l : Ledger) :
    simulateFuel L 0 (p :: q) l = none := rfl

theorem simulateFuel_succ_cons (L : Listeners) (n : ℕ) (p : Propagator)
    (q : List Propagator) (l : Ledger) :
    simulateFuel L (n + 1) (p :: q) l =
      simulateFuel L n (q ++ enqueueFromEntries L (p.propagate l).1) (p.propagate l).2 := rfl

/-- Conservation invariant: per currency, the derived entries sum to zero,
and so do each single rule's entries. -/
def ConsInv (l : Ledger) : Prop :=
  (∀ c, derivedSum c l = 0) ∧ (∀ rid c, ruleCurrencySum rid c l = 0)

theorem derivedSum_pair (a1 a2 : ℕ) (x : ℚ) (c0 c : String) (d1 d2 : String)
    (t1 t2 : ℤ) (rid : ℕ) :
    derivedSum c [⟨a1, x, c0, d1, t1, some rid⟩, ⟨a2, -x, c0, d2, t2, some rid⟩] = 0 := by
  by_cases h : c0 = c <;> simp [derivedSum, List.filter_cons, beq_iff_eq, h]

theorem ruleCurrencySum_pair (a1 a2 : ℕ) (x : ℚ) (c0 c : String) (d1 d2 : String)
    (t1 t2 : ℤ) (rid rid' : ℕ) :
    ruleCurrencySum rid' c
      [⟨a1, x, c0, d1, t1, some rid⟩, ⟨a2, -x, c0, d2, t2, some rid⟩] = 0 := by
  by_cases h : c0 = c <;> by_cases h' : rid = rid' <;>
    simp [ruleCurrencySum, List.filter_cons, beq_iff_eq, h, h']

theorem derivedSum_manual (a1 : ℕ) (x : ℚ) (c0 c : String) (d1 : String) (t1 : ℤ) :
    derivedSum c [⟨a1, x, c0, d1, t1, none⟩] = 0 := by
  simp [derivedSum, List.filter]

theorem ruleCurrencySum_manual (a1 : ℕ) (x : ℚ) (c0 c : String) (d1 : String)
    (t1 : ℤ) (rid : ℕ) :
    ruleCurrencySum rid c [⟨a1, x, c0, d1, t1, none⟩] = 0 := by
  simp [ruleCurrencySum, List.filter]

/-- One `propagate()` call preserves the conservation invariant: it writes
nothing, one manual entry, or a zero-sum same-rule same-currency pair. -/
theorem consInv_propagate (p : Propagator) (l : Ledger) (h : ConsInv l) :
    ConsInv (p.propagate l).2 := by
  obtain ⟨hd, hr⟩ := h
  cases p with
  | manualEntry a amt c0 ts desc =>
      constructor
      · intro c
        simp only [Propagator.propagate, manualEntryPropagate, derivedSum_append, hd,
          derivedSum_manual, add_zero]
      · intro rid c
        simp only [Propagator.propagate, manualEntryPropagate, ruleCurrencySum_append,
          hr, ruleCurrencySum_manual, add_zero]
  | topup d =>
      rw [Propagator.propagate, topupPropagate_eq]
      dsimp only
      split_ifs
      · exact ⟨hd, hr⟩
      · constructor
        · intro c
          rw [derivedSum_append, hd]
          have := derivedSum_pair d.source_account_id d.target_account_id
            (-(topupDeltaSpec
              (get_balance l d.target_account_id d.timestamp d.currency none)
              (get_balance_at_timestamp l d.target_account_id (d.timestamp + 1800)
                d.currency (some d.rule_id)) d.threshold d.target_amount))
            d.currency c (topupDescription d) (topupDescription d) d.timestamp
            (d.timestamp + 1800) d.rule_id
          rw [neg_neg] at this
          rw [this, add_zero]
        · intro rid c
          rw [ruleCurrencySum_append, hr]
          have := ruleCurrencySum_pair d.source_account_id d.target_account_id
            (-(topupDeltaSpec
              (get_balance l d.target_account_id d.timestamp d.currency none)
              (get_balance_at_timestamp l d.target_account_id (d.timestamp + 1800)
                d.currency (some d.rule_id)) d.threshold d.target_amount))
            d.currency c (topupDescription d) (topupDescription d) d.timestamp
            (d.timestamp + 1800) d.rule_id rid
          rw [neg_neg] at this
          rw [this, add_zero]
  | sweepOut d =>
      rw [Propagator.propagate, sweepOutPropagate_eq]
      dsimp only
      split_ifs
      · exact ⟨hd, hr⟩
      · constructor
        · intro c
          rw [derivedSum_append, hd, derivedSum_pair, add_zero]
        · intro rid c
          rw [ruleCurrencySum_append, hr, ruleCurrencySum_pair, add_zero]

/-- A whole simulation run preserves the conservation invariant. -/
theorem consInv_simulateFuel (L : Listeners) :
    ∀ (n : ℕ) (q : List Propagator) (l l' : Ledger),
      simulateFuel L n q l = some l' → ConsInv l → ConsInv l' := by
  intro n
  induction n with
  | zero =>
      intro q l l' h hc
      cases q with
      | nil => rw [simulateFuel_nil] at h; cases h; exact hc
      | cons p rest => simp [simulateFuel_zero_cons] at h
  | succ n ih =>
      intro q l l' h hc
      cases q with
      | nil => rw [simulateFuel_nil] at h; cases h; exact hc
      | cons p rest =>
          rw [simulateFuel_succ_cons] at h
          exact ih _ _ _ h (consInv_propagate p l hc)

theorem derivedSum_cons (c : String) (e : BalanceEntry) (t : Ledger) :
    derivedSum c (e :: t) =
      (if e.rule_id.isSome ∧ e.currency = c then e.amount else 0) + derivedSum c t := by
  obtain ⟨a, x, c0, d0, t0, rid?⟩ := e
  cases rid? <;> by_cases hc : c0 = c <;>
    simp [derivedSum, List.filter_cons, beq_iff_eq, hc]

theorem ruleCurrencySum_cons (rid : ℕ) (c : String) (e : BalanceEntry) (t : Ledger) :
    ruleCurrencySum rid c (e :: t) =
      (if e.rule_id = some rid ∧ e.currency = c then e.amount else 0) +
        ruleCurrencySum rid c t := by
  obtain ⟨a, x, c0, d0, t0, rid?⟩ := e
  cases rid? with
  | none => by_cases hc : c0 = c <;> simp [ruleCurrencySum, List.filter_cons, hc]
  | some r =>
      by_cases hr : r = rid <;> by_cases hc : c0 = c <;>
        simp [ruleCurrencySum, List.filter_cons, beq_iff_eq, hr, hc]

/-- Purging one rule's entries subtracts exactly that rule's sum. -/
theorem derivedSum_purge (rid0 : ℕ) (c : String) (l : Ledger) :
    derivedSum c (l.filter (fun e => !(e.rule_id == some rid0))) =
      derivedSum c l - ruleCurrencySum rid0 c l := by
  induction l with
  | nil => simp [derivedSum, ruleCurrencySum]
  | cons e t ih =>
      rw [List.filter_cons]
      by_cases h1 : e.rule_id = some rid0
      · rw [if_neg (by simp [h1]), ih, derivedSum_cons, ruleCurrencySum_cons]
        by_cases hc : e.currency = c <;> simp [h1, hc]
      · rw [if_pos (by simp [h1]), derivedSum_cons, derivedSum_cons,
          ruleCurrencySum_cons, ih]
        simp [h1]
        ring

theorem ruleCurrencySum_purge_self (rid0 : ℕ) (c : String) (l : Ledger) :
    ruleCurrencySum rid0 c (l.filter (fun e => !(e.rule_id == some rid0))) = 0 := by
  induction l with
  | nil => simp [ruleCurrencySum]
  | cons e t ih =>
      rw [List.filter_cons]
      by_cases h1 : e.rule_id = some rid0
      · rw [if_neg (by simp [h1])]; exact ih
      · rw [if_pos (by simp [h1]), ruleCurrencySum_cons, ih]
        simp [h1]

theorem ruleCurrencySum_purge_other (rid0 rid : ℕ) (c : String) (l : Ledger)
    (h : rid ≠ rid0) :
    ruleCurrencySum rid c (l.filter (fun e => !(e.rule_id == some rid0))) =
      ruleCurrencySum rid c l := by
  induction l with
  | nil => simp
  | cons e t ih =>
      rw [List.filter_cons, ruleCurrencySum_cons]
      by_cases h1 : e.rule_id = some rid0
      · rw [if_neg (by simp [h1]), ih]
        have : ¬(e.rule_id = some rid ∧ e.currency = c) := by
          rintro ⟨h2, -⟩
          exact h (Option.some_injective _ (h2.symm.trans h1))
        rw [if_neg this, zero_add]
      · rw [if_pos (by simp [h1]), ruleCurrencySum_cons, ih]

theorem consInv_purge (rid0 : ℕ) (l : Ledger) (h : ConsInv l) :
    ConsInv (l.filter (fun e => !(e.rule_id == some rid0))) := by
  obtain ⟨hd, hr⟩ := h
  constructor
  · intro c
    rw [derivedSum_purge, hd, hr, sub_zero]
  · intro rid c
    by_cases hrid : rid = rid0
    · subst hrid; exact ruleCurrencySum_purge_self rid c l
    · rw [ruleCurrencySum_purge_other rid0 rid c l hrid, hr]

theorem consInv_of_manual (l : Ledger) (h : ∀ e ∈ l, e.rule_id = none) :
    ConsInv l := by
  induction l with
  | nil => exact ⟨fun c => rfl, fun rid c => rfl⟩
  | cons e t ih =>
      have he := h e (List.mem_cons_self e t)
      have ⟨hd, hr⟩ := ih (fun x hx => h x (List.mem_cons_of_mem e hx))
      constructor
      · intro c
        simp_all [derivedSum, List.filter_cons]
      · intro rid c
        simp_all [ruleCurrencySum, List.filter_cons]

/-- Every ledger reachable without account deletion satisfies the
conservation invariant. -/
theorem consInv_reachNoDelete (l : Ledger) (h : ReachNoDelete l) : ConsInv l := by
  induction h with
  | empty => exact ⟨fun c => rfl, fun rid c => rfl⟩
  | create_funding_rule_step rules newRule meta fuel _ hrun ih =>
      cases meta with
      | none => cases hrun; exact ih
      | some w =>
          exact consInv_simulateFuel _ _ _ _ _ hrun ih
  | create_entry_step rules window a amt c ts desc fuel _ hrun ih =>
      exact consInv_simulateFuel _ _ _ _ _ hrun ih
  | delete_funding_rule_step rules rid meta fuel _ hrun ih =>
      cases meta with
      | none => cases hrun; exact consInv_purge _ _ ih
      | some w =>
          exact consInv_simulateFuel _ _ _ _ _ hrun (consInv_purge _ _ ih)
  | seed_step fuel _ hrun ih =>
      refine consInv_simulateFuel _ _ _ _ _ hrun (consInv_of_manual _ ?_)
      decide

/-- A simulation run never deletes: its result extends the initial ledger. -/
theorem simulateFuel_appends (L : Listeners) :
    ∀ (n : ℕ) (q : List Propagator) (l l' : Ledger),
      simulateFuel L n q l = some l' → ∃ s, l' = l ++ s := by
  intro n
  induction n with
  | zero =>
      intro q l l' h
      cases q with
      | nil => exact ⟨[], by simpa [simulateFuel_nil] using h.symm⟩
      | cons p rest => simp [simulateFuel_zero_cons] at h
  | succ n ih =>
      intro q l l' h
      cases q with
      | nil => exact ⟨[], by simpa [simulateFuel_nil] using h.symm⟩
      | cons p rest =>
          rw [simulateFuel_succ_cons] at h
          obtain ⟨s, hs⟩ := ih _ _ _ h
          exact ⟨(p.propagate l).1 ++ s, by
            rw [hs, propagate_snd_eq_append, List.append_assoc]⟩

theorem get_balance_cons (e : BalanceEntry) (l : Ledger) (a : ℕ) (ts : ℤ)
    (c : String) (rid : Option ℕ) :
    get_balance (e :: l) a ts c rid =
      (if (e.account_id == a && e.currency == c && decide (e.effective_time ≤ ts) &&
          ruleFilterMatches rid e) then e.amount else 0) + get_balance l a ts c rid := by
  unfold get_balance
  rw [List.filter_cons]
  by_cases h : (e.account_id == a && e.currency == c && decide (e.effective_time ≤ ts) &&
      ruleFilterMatches rid e) = true
  · rw [if_pos h, if_pos h, List.map_cons, List.sum_cons]
  · rw [if_neg h, if_neg h, zero_add]

theorem get_balance_at_timestamp_cons (e : BalanceEntry) (l : Ledger) (a : ℕ)
    (ts : ℤ) (c : String) (rid : Option ℕ) :
    get_balance_at_timestamp (e :: l) a ts c rid =
      (if (e.account_id == a && e.currency == c && decide (e.effective_time = ts) &&
          ruleFilterMatches rid e) then e.amount else 0) +
        get_balance_at_timestamp l a ts c rid := by
  unfold get_balance_at_timestamp
  rw [List.filter_cons]
  by_cases h : (e.account_id == a && e.currency == c && decide (e.effective_time = ts) &&
      ruleFilterMatches rid e) = true
  · rw [if_pos h, if_pos h, List.map_cons, List.sum_cons]
  · rw [if_neg h, if_neg h, zero_add]

theorem topupDeltaSpec_of_lt (tb pr th ta : ℚ) (h : tb < th) :
    topupDeltaSpec tb pr th ta = ta - tb - pr := by
  unfold topupDeltaSpec
  rw [if_neg (by linarith), if_pos h]

theorem topupDeltaSpec_of_gt (tb pr th ta : ℚ) (h : tb > th) :
    topupDeltaSpec tb pr th ta = -(min pr (tb - th)) := by
  unfold topupDeltaSpec
  rw [if_pos h]

theorem topupDeltaSpec_of_eq (tb pr th ta : ℚ) (h : tb = th) :
    topupDeltaSpec tb pr th ta = 0 := by
  unfold topupDeltaSpec
  rw [if_neg (by linarith), if_neg (by linarith)]

theorem sweepOutDeltaSpec_of_gt (sb pr th ta : ℚ) (h : sb > th) :
    sweepOutDeltaSpec sb pr th ta = -(sb - ta + pr) := by
  unfold sweepOutDeltaSpec
  rw [if_pos h]

theorem sweepOutDeltaSpec_of_lt_neg (sb pr th ta : ℚ) (h1 : sb < th) (h2 : pr < 0) :
    sweepOutDeltaSpec sb pr th ta = min (-pr) (th - sb) := by
  unfold sweepOutDeltaSpec
  rw [if_neg (by linarith), if_pos ⟨h1, h2⟩]

theorem sweepOutDeltaSpec_of_eq (sb pr th ta : ℚ) (h : sb = th) :
    sweepOutDeltaSpec sb pr th ta = 0 := by
  unfold sweepOutDeltaSpec
  rw [if_neg (by linarith), if_neg (by rintro ⟨h1, -⟩; linarith)]

theorem sweepOutDeltaSpec_of_lt_nonneg (sb pr th ta : ℚ) (h1 : sb < th)
    (h2 : 0 ≤ pr) : sweepOutDeltaSpec sb pr th ta = 0 := by
  unfold sweepOutDeltaSpec
  rw [if_neg (by linarith), if_neg (by rintro ⟨-, h3⟩; linarith)]

/-- `Topup.propagate` in the Δ = 0 branch. -/
theorem topupPropagate_delta_zero (d : RuleParams) (l : Ledger)
    (h : topupDeltaSpec (get_balance l d.target_account_id d.timestamp d.currency none)
      (get_balance_at_timestamp l d.target_account_id (d.timestamp + 1800) d.currency
        (some d.rule_id)) d.threshold d.target_amount = 0) :
    topupPropagate d l = ([], l) := by
  rw [topupPropagate_eq]
  dsimp only
  rw [if_pos h]

/-- `Topup.propagate` in the Δ ≠ 0 branch. -/
theorem topupPropagate_delta_ne (d : RuleParams) (l : Ledger)
    (h : topupDeltaSpec (get_balance l d.target_account_id d.timestamp d.currency none)
      (get_balance_at_timestamp l d.target_account_id (d.timestamp + 1800) d.currency
        (some d.rule_id)) d.threshold d.target_amount ≠ 0) :
    topupPropagate d l =
      ([⟨d.source_account_id,
          -(topupDeltaSpec (get_balance l d.target_account_id d.timestamp d.currency none)
            (get_balance_at_timestamp l d.target_account_id (d.timestamp + 1800) d.currency
              (some d.rule_id)) d.threshold d.target_amount), d.currency,
          topupDescription d, d.timestamp, some d.rule_id⟩,
        ⟨d.target_account_id,
          topupDeltaSpec (get_balance l d.target_account_id d.timestamp d.currency none)
            (get_balance_at_timestamp l d.target_account_id (d.timestamp + 1800) d.currency
              (some d.rule_id)) d.threshold d.target_amount, d.currency,
          topupDescription d, d.timestamp + 1800, some d.rule_id⟩],
       l ++ [⟨d.source_account_id,
          -(topupDeltaSpec (get_balance l d.target_account_id d.timestamp d.currency none)
            (get_balance_at_timestamp l d.target_account_id (d.timestamp + 1800) d.currency
              (some d.rule_id)) d.threshold d.target_amount), d.currency,
          topupDescription d, d.timestamp, some d.rule_id⟩,
        ⟨d.target_account_id,
          topupDeltaSpec (get_balance l d.target_account_id d.timestamp d.currency none)
            (get_balance_at_timestamp l d.target_account_id (d.timestamp + 1800) d.currency
              (some d.rule_id)) d.threshold d.target_amount, d.currency,
          topupDescription d, d.timestamp + 1800, some d.rule_id⟩]) := by
  rw [topupPropagate_eq]
  dsimp only
  rw [if_neg h]

/-- `SweepOut.propagate` in the |Δ| < 1e-9 branch. -/
theorem sweepOutPropagate_delta_small (d : RuleParams) (l : Ledger)
    (h : |sweepOutDeltaSpec (get_balance l d.source_account_id d.timestamp d.currency none)
      (get_balance_at_timestamp l d.source_account_id (d.timestamp + 1800) d.currency
        (some d.rule_id)) d.threshold d.target_amount| < 1 / 1000000000) :
    sweepOutPropagate d l = ([], l) := by
  rw [sweepOutPropagate_eq]
  dsimp only
  rw [if_pos h]

/-- `SweepOut.propagate` in the writing branch. -/
theorem sweepOutPropagate_delta_large (d : RuleParams) (l : Ledger)
    (h : ¬(|sweepOutDeltaSpec (get_balance l d.source_account_id d.timestamp d.currency none)
      (get_balance_at_timestamp l d.source_account_id (d.timestamp + 1800) d.currency
        (some d.rule_id)) d.threshold d.target_amount| < 1 / 1000000000)) :
    sweepOutPropagate d l =
      ([⟨d.source_account_id,
          sweepOutDeltaSpec (get_balance l d.source_account_id d.timestamp d.currency none)
            (get_balance_at_timestamp l d.source_account_id (d.timestamp + 1800) d.currency
              (some d.rule_id)) d.threshold d.target_amount, d.currency,
          sweepOutDescription d, d.timestamp + 1800, some d.rule_id⟩,
        ⟨d.target_account_id,
          -(sweepOutDeltaSpec (get_balance l d.source_account_id d.timestamp d.currency none)
            (get_balance_at_timestamp l d.source_account_id (d.timestamp + 1800) d.currency
              (some d.rule_id)) d.threshold d.target_amount), d.currency,
          sweepOutDescription d, d.timestamp + 1800, some d.rule_id⟩],
       l ++ [⟨d.source_account_id,
          sweepOutDeltaSpec (get_balance l d.source_account_id d.timestamp d.currency none)
            (get_balance_at_timestamp l d.source_account_id (d.timestamp + 1800) d.currency
              (some d.rule_id)) d.threshold d.target_amount, d.currency,
          sweepOutDescription d, d.timestamp + 1800, some d.rule_id⟩,
        ⟨d.target_account_id,
          -(sweepOutDeltaSpec (get_balance l d.source_account_id d.timestamp d.currency none)
            (get_balance_at_timestamp l d.source_account_id (d.timestamp + 1800) d.currency
              (some d.rule_id)) d.threshold d.target_amount), d.currency,
          sweepOutDescription d, d.timestamp + 1800, some d.rule_id⟩]) := by
  rw [sweepOutPropagate_eq]
  dsimp only
  rw [if_neg h]

/-- Balance bookkeeping after a `Topup` pair write: the target balance at the
firing time is unchanged (the source debit is on the other account, the
target credit lands 30 minutes later), and the rule's prior at the funding
timestamp grows by the written Δ. -/
theorem topup_post_balances (d : RuleParams) (l : Ledger) (x : ℚ)
    (hne : d.source_account_id ≠ d.target_account_id) :
    get_balance (l ++ [⟨d.source_account_id, -x, d.currency, topupDescription d,
        d.timestamp, some d.rule_id⟩,
      ⟨d.target_account_id, x, d.currency, topupDescription d, d.timestamp + 1800,
        some d.rule_id⟩]) d.target_account_id d.timestamp d.currency none =
      get_balance l d.target_account_id d.timestamp d.currency none ∧
    get_balance_at_timestamp (l ++ [⟨d.source_account_id, -x, d.currency,
        topupDescription d, d.timestamp, some d.rule_id⟩,
      ⟨d.target_account_id, x, d.currency, topupDescription d, d.timestamp + 1800,
        some d.rule_id⟩]) d.target_account_id (d.timestamp + 1800) d.currency
        (some d.rule_id) =
      get_balance_at_timestamp l d.target_account_id (d.timestamp + 1800) d.currency
        (some d.rule_id) + x := by
  have hne' : (d.source_account_id == d.target_account_id) = false := by
    simp [hne]
  have htime : ¬(d.timestamp + 1800 ≤ d.timestamp) := by omega
  constructor
  · rw [get_balance_append, get_balance_cons, get_balance_cons]
    rw [if_neg (by simp [hne']), if_neg (by simp [htime])]
    show get_balance l d.target_account_id d.timestamp d.currency none +
      (0 + (0 + get_balance [] d.target_account_id d.timestamp d.currency none)) = _
    show get_balance l d.target_account_id d.timestamp d.currency none + (0 + (0 + 0)) = _
    ring
  · rw [get_balance_at_timestamp_append, get_balance_at_timestamp_cons,
      get_balance_at_timestamp_cons]
    rw [if_neg (by simp [hne']), if_pos (by simp [ruleFilterMatches])]
    show get_balance_at_timestamp l d.target_account_id (d.timestamp + 1800) d.currency
        (some d.rule_id) + (0 + (x + get_balance_at_timestamp []
          d.target_account_id (d.timestamp + 1800) d.currency (some d.rule_id))) = _
    show get_balance_at_timestamp l d.target_account_id (d.timestamp + 1800) d.currency
        (some d.rule_id) + (0 + (x + 0)) = _
    ring

/-- Balance bookkeeping after a `SweepOut` pair write: both entries land at
the funding timestamp, so the source balance at the firing time is
unchanged, and the rule's prior on the source grows by the written Δ. -/
theorem sweep_post_balances (d : RuleParams) (l : Ledger) (x : ℚ)
    (hne : d.source_account_id ≠ d.target_account_id) :
    get_balance (l ++ [⟨d.source_account_id, x, d.currency, sweepOutDescription d,
        d.timestamp + 1800, some d.rule_id⟩,
      ⟨d.target_account_id, -x, d.currency, sweepOutDescription d, d.timestamp + 1800,
        some d.rule_id⟩]) d.source_account_id d.timestamp d.currency none =
      get_balance l d.source_account_id d.timestamp d.currency none ∧
    get_balance_at_timestamp (l ++ [⟨d.source_account_id, x, d.currency,
        sweepOutDescription d, d.timestamp + 1800, some d.rule_id⟩,
      ⟨d.target_account_id, -x, d.currency, sweepOutDescription d, d.timestamp + 1800,
        some d.rule_id⟩]) d.source_account_id (d.timestamp + 1800) d.currency
        (some d.rule_id) =
      get_balance_at_timestamp l d.source_account_id (d.timestamp + 1800) d.currency
        (some d.rule_id) + x := by
  have hne' : (d.target_account_id == d.source_account_id) = false := by
    simp [Ne.symm hne]
  have htime : ¬(d.timestamp + 1800 ≤ d.timestamp) := by omega
  constructor
  · rw [get_balance_append, get_balance_cons, get_balance_cons]
    rw [if_neg (by simp [htime]), if_neg (by simp [htime])]
    show get_balance l d.source_account_id d.timestamp d.currency none + (0 + (0 + 0)) = _
    ring
  · rw [get_balance_at_timestamp_append, get_balance_at_timestamp_cons,
      get_balance_at_timestamp_cons]
    rw [if_pos (by simp [ruleFilterMatches]), if_neg (by simp [hne'])]
    show get_balance_at_timestamp l d.source_account_id (d.timestamp + 1800) d.currency
        (some d.rule_id) + (x + (0 + 0)) = _
    ring

/-!
## Claim theorems
-/

/-- C3: for every invocation of `Topup.propagate`, with `target_balance`
read by `get_balance` and `prior` by `get_balance_at_timestamp` at the
funding timestamp (= timestamp + 30 minutes = 1800 s), the written delta is
Δ = −min(prior, target_balance − threshold) when target_balance > threshold,
Δ = target_amount − target_balance − prior when target_balance < threshold,
and Δ = 0 otherwise; when Δ = 0 nothing is written and the empty list is
returned, otherwise exactly the two entries tagged with the rule id are
written and returned: amount −Δ on the source account at `timestamp` and
amount +Δ on the target account at `timestamp + 1800`. -/
theorem c3_topup_propagate (d : RuleParams) (l : Ledger) (tb pr bd : ℚ)
    (htb : tb = get_balance l d.target_account_id d.timestamp d.currency none)
    (hpr : pr = get_balance_at_timestamp l d.target_account_id (d.timestamp + 1800)
      d.currency (some d.rule_id))
    (hbd : bd = topupDeltaSpec tb pr d.threshold d.target_amount) :
    (bd = 0 → topupPropagate d l = ([], l)) ∧
    (bd ≠ 0 →
      topupPropagate d l =
        ([⟨d.source_account_id, -bd, d.currency, topupDescription d, d.timestamp,
            some d.rule_id⟩,
          ⟨d.target_account_id, bd, d.currency, topupDescription d, d.timestamp + 1800,
            some d.rule_id⟩],
         l ++ [⟨d.source_account_id, -bd, d.currency, topupDescription d, d.timestamp,
            some d.rule_id⟩,
          ⟨d.target_account_id, bd, d.currency, topupDescription d, d.timestamp + 1800,
            some d.rule_id⟩])) := by
  subst htb hpr hbd
  constructor
  · intro h0
    rw [topupPropagate_eq]
    dsimp only
    rw [if_pos h0]
  · intro hne
    rw [topupPropagate_eq]
    dsimp only
    rw [if_neg hne]

/-- Witness for `c3_topup_propagate` at a concrete rule and the empty
ledger: balance 0 is below threshold 100, so Δ = 200 − 0 − 0 = 200 and the
pair is written. -/
theorem c3_topup_propagate_witness :
    topupPropagate ⟨1, 1, 2, 0, "USD", 100, 200⟩ [] =
      ([⟨2, -200, "USD", topupDescription ⟨1, 1, 2, 0, "USD", 100, 200⟩, 0, some 1⟩,
        ⟨1, 200, "USD", topupDescription ⟨1, 1, 2, 0, "USD", 100, 200⟩, 1800, some 1⟩],
       [⟨2, -200, "USD", topupDescription ⟨1, 1, 2, 0, "USD", 100, 200⟩, 0, some 1⟩,
        ⟨1, 200, "USD", topupDescription ⟨1, 1, 2, 0, "USD", 100, 200⟩, 1800, some 1⟩]) := by
  have h := c3_topup_propagate ⟨1, 1, 2, 0, "USD", 100, 200⟩ [] 0 0 200 (by rfl) (by rfl)
    (by norm_num [topupDeltaSpec])
  simpa using h.2 (by norm_num)

/-- C4: for every invocation of `SweepOut.propagate`, with `source_balance`
and `prior` read as in the source, Δ = −(source_balance − target_amount +
prior) when source_balance > threshold, Δ = min(−prior, threshold −
source_balance) when source_balance < threshold and prior < 0, and Δ = 0
otherwise; when |Δ| < 1e-9 nothing is written and the empty list is
returned, otherwise exactly the two entries tagged with the rule id, both
at the funding timestamp (timestamp + 1800), are written and returned:
amount Δ on the source account and amount −Δ on the target account. -/
theorem c4_sweepout_propagate (d : RuleParams) (l : Ledger) (sb pr bd : ℚ)
    (hsb : sb = get_balance l d.source_account_id d.timestamp d.currency none)
    (hpr : pr = get_balance_at_timestamp l d.source_account_id (d.timestamp + 1800)
      d.currency (some d.rule_id))
    (hbd : bd = sweepOutDeltaSpec sb pr d.threshold d.target_amount) :
    (|bd| < 1 / 1000000000 → sweepOutPropagate d l = ([], l)) ∧
    (¬(|bd| < 1 / 1000000000) →
      sweepOutPropagate d l =
        ([⟨d.source_account_id, bd, d.currency, sweepOutDescription d,
            d.timestamp + 1800, some d.rule_id⟩,
          ⟨d.target_account_id, -bd, d.currency, sweepOutDescription d,
            d.timestamp + 1800, some d.rule_id⟩],
         l ++ [⟨d.source_account_id, bd, d.currency, sweepOutDescription d,
            d.timestamp + 1800, some d.rule_id⟩,
          ⟨d.target_account_id, -bd, d.currency, sweepOutDescription d,
            d.timestamp + 1800, some d.rule_id⟩])) := by
  subst hsb hpr hbd
  constructor
  · intro h0
    rw [sweepOutPropagate_eq]
    dsimp only
    rw [if_pos h0]
  · intro hne
    rw [sweepOutPropagate_eq]
    dsimp only
    rw [if_neg hne]

/-- Witness for `c4_sweepout_propagate`: source balance 150 (one manual
entry) exceeds threshold 100, Δ = −(150 − 50 + 0) = −100, so the pair is
written, both sides at the funding timestamp. -/
theorem c4_sweepout_propagate_witness :
    sweepOutPropagate ⟨1, 2, 1, 10, "USD", 100, 50⟩
        [⟨1, 150, "USD", "seed", 0, none⟩] =
      ([⟨1, -100, "USD", sweepOutDescription ⟨1, 2, 1, 10, "USD", 100, 50⟩, 1810, some 1⟩,
        ⟨2, 100, "USD", sweepOutDescription ⟨1, 2, 1, 10, "USD", 100, 50⟩, 1810, some 1⟩],
       [⟨1, 150, "USD", "seed", 0, none⟩,
        ⟨1, -100, "USD", sweepOutDescription ⟨1, 2, 1, 10, "USD", 100, 50⟩, 1810, some 1⟩,
        ⟨2, 100, "USD", sweepOutDescription ⟨1, 2, 1, 10, "USD", 100, 50⟩, 1810, some 1⟩]) := by
  have h := c4_sweepout_propagate ⟨1, 2, 1, 10, "USD", 100, 50⟩
    [⟨1, 150, "USD", "seed", 0, none⟩] 150 0 (-100)
    (by norm_num [get_balance, ruleFilterMatches, List.filter])
    (by norm_num [get_balance_at_timestamp, ruleFilterMatches, List.filter])
    (by norm_num [sweepOutDeltaSpec])
  refine Eq.trans (h.2 ?_).symm.symm rfl
  rw [abs_neg, abs_of_nonneg (by norm_num)]
  norm_num

/-- C10: a rule propagator is never re-enqueued by its own writes: for every
`Topup` with distinct source and target accounts, and for every `SweepOut`,
each written entry landing on the account of the propagator's own listening
point has `effective_time = timestamp + 1800`, strictly after the listening
point's timestamp, so the scheduler's test `effective_time ≤ listen_ts`
fails for the writer's own listening point. -/
theorem c10_no_self_reenqueue :
    (∀ (d : RuleParams) (l : Ledger),
      d.source_account_id ≠ d.target_account_id →
      ∀ pt ∈ (Propagator.topup d).listening_points,
        ∀ e ∈ (topupPropagate d l).1, e.account_id = pt.1 →
          e.effective_time = d.timestamp + 1800 ∧ ¬(e.effective_time ≤ pt.2)) ∧
    (∀ (d : RuleParams) (l : Ledger),
      ∀ pt ∈ (Propagator.sweepOut d).listening_points,
        ∀ e ∈ (sweepOutPropagate d l).1, e.account_id = pt.1 →
          e.effective_time = d.timestamp + 1800 ∧ ¬(e.effective_time ≤ pt.2)) := by
  constructor
  · intro d l hne pt hpt e he hacct
    simp only [Propagator.listening_points, List.mem_singleton] at hpt
    subst hpt
    rw [topupPropagate_eq] at he
    dsimp only at he
    split_ifs at he with h0
    · simp at he
    · simp only [List.mem_cons, List.mem_singleton, List.not_mem_nil, or_false] at he
      rcases he with he | he
      · subst he
        exact absurd hacct hne
      · subst he
        exact ⟨rfl, by show ¬(d.timestamp + 1800 ≤ d.timestamp); omega⟩
  · intro d l pt hpt e he hacct
    simp only [Propagator.listening_points, List.mem_singleton] at hpt
    subst hpt
    rw [sweepOutPropagate_eq] at he
    dsimp only at he
    split_ifs at he with h0
    · simp at he
    · simp only [List.mem_cons, List.mem_singleton, List.not_mem_nil, or_false] at he
      rcases he with he | he
      · subst he
        exact ⟨rfl, by show ¬(d.timestamp + 1800 ≤ d.timestamp); omega⟩
      · subst he
        exact ⟨rfl, by show ¬(d.timestamp + 1800 ≤ d.timestamp); omega⟩

/-- Witness for `c10_no_self_reenqueue` at the concrete topup of
`c3_topup_propagate_witness`: its target-account write lands at time 1800,
after the listening point at 0. -/
theorem c10_no_self_reenqueue_witness :
    (⟨1, 200, "USD", topupDescription ⟨1, 1, 2, 0, "USD", 100, 200⟩, 1800,
      some 1⟩ : BalanceEntry).effective_time = 1800 ∧
      ¬((⟨1, 200, "USD", topupDescription ⟨1, 1, 2, 0, "USD", 100, 200⟩, 1800,
        some 1⟩ : BalanceEntry).effective_time ≤ (0 : ℤ)) := by
  have h := (c10_no_self_reenqueue.1 ⟨1, 1, 2, 0, "USD", 100, 200⟩ [] (by decide)
    (1, 0) (by simp [Propagator.listening_points])
    ⟨1, 200, "USD", topupDescription ⟨1, 1, 2, 0, "USD", 100, 200⟩, 1800, some 1⟩
    (by rw [c3_topup_propagate_witness]; simp) rfl)
  exact h

/-- C7: in every scheduler iteration the popped propagator's new entries
re-enqueue, in FIFO order, exactly the listeners registered under each
entry's account whose listening timestamp satisfies
`effective_time ≤ listen_ts`; listeners under other accounts or with an
earlier listening timestamp are not re-enqueued. -/
theorem c7_scheduler_reenqueue :
    (∀ (L : Listeners) (n : ℕ) (p : Propagator) (rest : List Propagator) (l : Ledger),
      simulateFuel L (n + 1) (p :: rest) l =
        simulateFuel L n (rest ++ enqueueFromEntries L (p.propagate l).1)
          (p.propagate l).2) ∧
    (∀ (L : Listeners) (es : List BalanceEntry) (q : Propagator),
      q ∈ enqueueFromEntries L es ↔
        ∃ e ∈ es, ∃ ts : ℤ, (e.account_id, ts, q) ∈ L ∧ e.effective_time ≤ ts) := by
  constructor
  · intro L n p rest l
    exact simulateFuel_succ_cons L n p rest l
  · intro L es q
    constructor
    · intro hq
      simp only [enqueueFromEntries] at hq
      rw [List.mem_flatten] at hq
      obtain ⟨ps, hps, hqps⟩ := hq
      rw [List.mem_map] at hps
      obtain ⟨e, he, rfl⟩ := hps
      simp only [enqueueForEntry] at hqps
      rw [List.mem_map] at hqps
      obtain ⟨tp, htp, rfl⟩ := hqps
      rw [List.mem_filter] at htp
      obtain ⟨htp1, hts⟩ := htp
      rw [decide_eq_true_eq] at hts
      simp only [accountListeners] at htp1
      rw [List.mem_map] at htp1
      obtain ⟨x, hx, rfl⟩ := htp1
      rw [List.mem_filter] at hx
      obtain ⟨hxL, hxa⟩ := hx
      obtain ⟨x1, xts, xq⟩ := x
      rw [beq_iff_eq] at hxa
      dsimp only at hxa hts ⊢
      subst hxa
      exact ⟨e, he, xts, hxL, hts⟩
    · rintro ⟨e, he, ts, hL, hts⟩
      simp only [enqueueFromEntries]
      rw [List.mem_flatten]
      refine ⟨enqueueForEntry L e, List.mem_map.mpr ⟨e, he, rfl⟩, ?_⟩
      simp only [enqueueForEntry]
      rw [List.mem_map]
      refine ⟨(ts, q), ?_, rfl⟩
      rw [List.mem_filter]
      refine ⟨?_, by simpa using hts⟩
      simp only [accountListeners]
      rw [List.mem_map]
      refine ⟨(e.account_id, ts, q), ?_, rfl⟩
      rw [List.mem_filter]
      exact ⟨hL, by simp⟩

/-- C8: `get_balance` returns the sum of `amount` over exactly the entries
with the given account, currency, and `effective_time ≤ as_of`, further
restricted to the given `rule_id` when supplied, and `0` when nothing
matches; `get_balance_at_timestamp` is identical with
`effective_time = timestamp`. -/
theorem c8_get_balance (l : Ledger) (a : ℕ) (ts : ℤ) (c : String) (rid : Option ℕ) :
    (get_balance l a ts c rid =
      ((l.filter (fun e => decide (e.account_id = a ∧ e.currency = c ∧
          e.effective_time ≤ ts ∧ ∀ r, rid = some r → e.rule_id = some r))).map
        (fun e => e.amount)).sum) ∧
    ((∀ e ∈ l, ¬(e.account_id = a ∧ e.currency = c ∧ e.effective_time ≤ ts ∧
        ∀ r, rid = some r → e.rule_id = some r)) → get_balance l a ts c rid = 0) ∧
    (get_balance_at_timestamp l a ts c rid =
      ((l.filter (fun e => decide (e.account_id = a ∧ e.currency = c ∧
          e.effective_time = ts ∧ ∀ r, rid = some r → e.rule_id = some r))).map
        (fun e => e.amount)).sum) ∧
    ((∀ e ∈ l, ¬(e.account_id = a ∧ e.currency = c ∧ e.effective_time = ts ∧
        ∀ r, rid = some r → e.rule_id = some r)) → get_balance_at_timestamp l a ts c rid = 0) := by
  have hfil1 : ∀ e : BalanceEntry,
      (e.account_id == a && e.currency == c && decide (e.effective_time ≤ ts) &&
        ruleFilterMatches rid e) =
      decide (e.account_id = a ∧ e.currency = c ∧ e.effective_time ≤ ts ∧
        ∀ r, rid = some r → e.rule_id = some r) := by
    intro e
    apply Bool.eq_iff_iff.mpr
    simp only [Bool.and_eq_true, decide_eq_true_eq, beq_iff_eq]
    cases rid with
    | none =>
        rw [ruleFilterMatches]
        constructor
        · rintro ⟨⟨⟨ha, hc⟩, ht⟩, -⟩
          exact ⟨ha, hc, ht, fun r hr => absurd hr (by simp)⟩
        · rintro ⟨ha, hc, ht, -⟩
          exact ⟨⟨⟨ha, hc⟩, ht⟩, rfl⟩
    | some r =>
        rw [ruleFilterMatches]
        rw [beq_iff_eq]
        constructor
        · rintro ⟨⟨⟨ha, hc⟩, ht⟩, hr⟩
          refine ⟨ha, hc, ht, fun r' hrr => ?_⟩
          cases hrr
          exact hr
        · rintro ⟨ha, hc, ht, h⟩
          exact ⟨⟨⟨ha, hc⟩, ht⟩, h r rfl⟩
  have hfil2 : ∀ e : BalanceEntry,
      (e.account_id == a && e.currency == c && decide (e.effective_time = ts) &&
        ruleFilterMatches rid e) =
      decide (e.account_id = a ∧ e.currency = c ∧ e.effective_time = ts ∧
        ∀ r, rid = some r → e.rule_id = some r) := by
    intro e
    apply Bool.eq_iff_iff.mpr
    simp only [Bool.and_eq_true, decide_eq_true_eq, beq_iff_eq]
    cases rid with
    | none =>
        rw [ruleFilterMatches]
        constructor
        · rintro ⟨⟨⟨ha, hc⟩, ht⟩, -⟩
          exact ⟨ha, hc, ht, fun r hr => absurd hr (by simp)⟩
        · rintro ⟨ha, hc, ht, -⟩
          exact ⟨⟨⟨ha, hc⟩, ht⟩, rfl⟩
    | some r =>
        rw [ruleFilterMatches]
        rw [beq_iff_eq]
        constructor
        · rintro ⟨⟨⟨ha, hc⟩, ht⟩, hr⟩
          refine ⟨ha, hc, ht, fun r' hrr => ?_⟩
          cases hrr
          exact hr
        · rintro ⟨ha, hc, ht, h⟩
          exact ⟨⟨⟨ha, hc⟩, ht⟩, h r rfl⟩
  have h1 : get_balance l a ts c rid =
      ((l.filter (fun e => decide (e.account_id = a ∧ e.currency = c ∧
          e.effective_time ≤ ts ∧ ∀ r, rid = some r → e.rule_id = some r))).map
        (fun e => e.amount)).sum := by
    unfold get_balance
    rw [List.filter_congr (fun e _ => hfil1 e)]
  have h2 : get_balance_at_timestamp l a ts c rid =
      ((l.filter (fun e => decide (e.account_id = a ∧ e.currency = c ∧
          e.effective_time = ts ∧ ∀ r, rid = some r → e.rule_id = some r))).map
        (fun e => e.amount)).sum := by
    unfold get_balance_at_timestamp
    rw [List.filter_congr (fun e _ => hfil2 e)]
  refine ⟨h1, ?_, h2, ?_⟩
  · intro hnone
    rw [h1]
    have : l.filter (fun e => decide (e.account_id = a ∧ e.currency = c ∧
        e.effective_time ≤ ts ∧ ∀ r, rid = some r → e.rule_id = some r)) = [] := by
      rw [List.filter_eq_nil_iff]
      intro e he
      simpa using hnone e he
    rw [this]
    rfl
  · intro hnone
    rw [h2]
    have : l.filter (fun e => decide (e.account_id = a ∧ e.currency = c ∧
        e.effective_time = ts ∧ ∀ r, rid = some r → e.rule_id = some r)) = [] := by
      rw [List.filter_eq_nil_iff]
      intro e he
      simpa using hnone e he
    rw [this]
    rfl

/-- Witness for `c8_get_balance` on a two-entry ledger: the first entry
matches account 1 in USD at or before time 5, the second (other account)
does not, so the balance is 3; the no-match clause gives 0 for account 9. -/
theorem c8_get_balance_witness :
    get_balance [⟨1, 3, "USD", "x", 0, none⟩, ⟨2, 4, "USD", "y", 0, none⟩] 1 5 "USD"
        none = 3 ∧
    get_balance [⟨1, 3, "USD", "x", 0, none⟩, ⟨2, 4, "USD", "y", 0, none⟩] 9 5 "USD"
        none = 0 := by
  constructor
  · rw [(c8_get_balance [⟨1, 3, "USD", "x", 0, none⟩, ⟨2, 4, "USD", "y", 0, none⟩]
      1 5 "USD" none).1]
    norm_num [List.filter]
  · exact (c8_get_balance [⟨1, 3, "USD", "x", 0, none⟩, ⟨2, 4, "USD", "y", 0, none⟩]
      9 5 "USD" none).2.1 (by norm_num)

/-- C9: `POST /simulations/{s}/funding-rules` returns 422 — storing nothing
(the `unprocessable` outcome carries no rule) — exactly when the body
violates a constraint: `time_of_day` fails to parse as HH:MM:SS,
`rule_type` is not one of the three literals, source equals target,
`TOPUP` with `target_amount < threshold`, or `SWEEP_OUT` with
`target_amount > threshold`; and a stored `BACKUP_FUNDING` rule has
`threshold` and `target_amount` coerced to 0. -/
theorem c9_create_funding_rule_validation (body : FundingRuleCreate)
    (accounts : List ℕ) (next_id : ℕ) :
    ((∃ msg, create_funding_rule body accounts next_id =
        CreateRuleOutcome.unprocessable msg) ↔
      (parseTimeOfDay body.time_of_day = none ∨
       ¬(body.rule_type = "BACKUP_FUNDING" ∨ body.rule_type = "TOPUP" ∨
          body.rule_type = "SWEEP_OUT") ∨
       body.source_account_id = body.target_account_id ∨
       (body.rule_type = "TOPUP" ∧ body.target_amount < body.threshold) ∨
       (body.rule_type = "SWEEP_OUT" ∧ body.threshold < body.target_amount))) ∧
    (∀ r, create_funding_rule body accounts next_id = CreateRuleOutcome.created r →
       body.rule_type = "BACKUP_FUNDING" → r.threshold = 0 ∧ r.target_amount = 0) := by
  unfold create_funding_rule
  by_cases h1 : (parseTimeOfDay body.time_of_day).isNone
  · rw [if_pos h1]
    constructor
    · constructor
      · intro _
        exact Or.inl (Option.isNone_iff_eq_none.mp h1)
      · intro _
        exact ⟨_, rfl⟩
    · intro r hr
      cases hr
  · rw [if_neg h1]
    have h1' : ¬ parseTimeOfDay body.time_of_day = none := by
      simpa [Option.isNone_iff_eq_none] using h1
    by_cases h2 : body.rule_type = "BACKUP_FUNDING" ∨ body.rule_type = "TOPUP" ∨
        body.rule_type = "SWEEP_OUT"
    · rw [if_neg (not_not_intro h2)]
      by_cases h3 : body.target_account_id = body.source_account_id
      · rw [if_pos h3]
        constructor
        · constructor
          · intro _
            exact Or.inr (Or.inr (Or.inl h3.symm))
          · intro _
            exact ⟨_, rfl⟩
        · intro r hr
          cases hr
      · rw [if_neg h3]
        dsimp only
        rcases h2 with hb | ht | hs
        · -- BACKUP_FUNDING: coercion, no amount checks can fire
          rw [if_pos hb]
          have hbt : ¬("BACKUP_FUNDING" = "TOPUP") := by decide
          have hbs : ¬("BACKUP_FUNDING" = "SWEEP_OUT") := by decide
          rw [if_neg (by simp [hb, hbt]), if_neg (by simp [hb, hbs])]
          constructor
          · constructor
            · intro hex
              exfalso
              split_ifs at hex <;> obtain ⟨msg, hmsg⟩ := hex <;> cases hmsg
            · rintro (hne | hty | hacct | ⟨hty, -⟩ | ⟨hty, -⟩)
              · exact absurd hne h1'
              · exact absurd (Or.inl hb) hty
              · exact absurd hacct.symm h3
              · exact absurd hb (by rw [hty]; decide)
              · exact absurd hb (by rw [hty]; decide)
          · intro r hr _
            split_ifs at hr <;> cases hr
            exact ⟨rfl, rfl⟩
        · -- TOPUP
          have hbt : ¬(body.rule_type = "BACKUP_FUNDING") := by rw [ht]; decide
          rw [if_neg hbt]
          by_cases h4 : body.target_amount < body.threshold
          · rw [if_pos ⟨ht, h4⟩]
            constructor
            · exact ⟨fun _ => Or.inr (Or.inr (Or.inr (Or.inl ⟨ht, h4⟩))),
                fun _ => ⟨_, rfl⟩⟩
            · intro r hr
              cases hr
          · rw [if_neg (fun hc => h4 hc.2)]
            have hts : ¬(body.rule_type = "SWEEP_OUT" ∧
                body.threshold < body.target_amount) := by
              rintro ⟨hc, -⟩
              rw [ht] at hc
              exact absurd hc (by decide)
            rw [if_neg hts]
            constructor
            · constructor
              · intro hex
                exfalso
                split_ifs at hex <;> obtain ⟨msg, hmsg⟩ := hex <;> cases hmsg
              · rintro (hne | hty | hacct | ⟨-, h4'⟩ | ⟨hty, -⟩)
                · exact absurd hne h1'
                · exact absurd (Or.inr (Or.inl ht)) hty
                · exact absurd hacct.symm h3
                · exact absurd h4' h4
                · exact absurd ht (by rw [hty]; decide)
            · intro r hr hb
              exact absurd hb hbt
        · -- SWEEP_OUT
          have hbt : ¬(body.rule_type = "BACKUP_FUNDING") := by rw [hs]; decide
          rw [if_neg hbt]
          have htp : ¬(body.rule_type = "TOPUP" ∧
              body.target_amount < body.threshold) := by
            rintro ⟨hc, -⟩
            rw [hs] at hc
            exact absurd hc (by decide)
          rw [if_neg htp]
          by_cases h4 : body.threshold < body.target_amount
          · rw [if_pos ⟨hs, h4⟩]
            constructor
            · exact ⟨fun _ => Or.inr (Or.inr (Or.inr (Or.inr ⟨hs, h4⟩))),
                fun _ => ⟨_, rfl⟩⟩
            · intro r hr
              cases hr
          · rw [if_neg (fun hc => h4 hc.2)]
            constructor
            · constructor
              · intro hex
                exfalso
                split_ifs at hex <;> obtain ⟨msg, hmsg⟩ := hex <;> cases hmsg
              · rintro (hne | hty | hacct | ⟨hty, -⟩ | ⟨-, h4'⟩)
                · exact absurd hne h1'
                · exact absurd (Or.inr (Or.inr hs)) hty
                · exact absurd hacct.symm h3
                · exact absurd hs (by rw [hty]; decide)
                · exact absurd h4' h4
            · intro r hr hb
              exact absurd hb hbt
    · rw [if_pos h2]
      constructor
      · exact ⟨fun _ => Or.inr (Or.inl h2), fun _ => ⟨_, rfl⟩⟩
      · intro r hr
        cases hr

/-- Witness for `c9_create_funding_rule_validation`: a TOPUP body with
`target_amount < threshold` (spec scenario F) is rejected with 422, and a
stored BACKUP_FUNDING rule carries coerced zero threshold and target. -/
theorem c9_create_funding_rule_validation_witness :
    (∃ msg, create_funding_rule ⟨"TOPUP", 1, 2, "09:00:00", "USD", 100, 50⟩ [1, 2] 7 =
      CreateRuleOutcome.unprocessable msg) ∧
    ((⟨7, "BACKUP_FUNDING", 1, 2, "09:00:00", "USD", 0, 0⟩ : FundingRule).threshold = 0 ∧
      (⟨7, "BACKUP_FUNDING", 1, 2, "09:00:00", "USD", 0, 0⟩ : FundingRule).target_amount = 0) := by
  constructor
  · exact (c9_create_funding_rule_validation ⟨"TOPUP", 1, 2, "09:00:00", "USD", 100, 50⟩
      [1, 2] 7).1.mpr (Or.inr (Or.inr (Or.inr (Or.inl ⟨rfl, by norm_num⟩))))
  · have hr : create_funding_rule ⟨"BACKUP_FUNDING", 1, 2, "09:00:00", "USD", 3, 4⟩
        [1, 2] 7 =
        CreateRuleOutcome.created ⟨7, "BACKUP_FUNDING", 1, 2, "09:00:00", "USD", 0, 0⟩ := by
      unfold create_funding_rule
      rw [if_neg (by decide), if_neg (by decide), if_neg (by decide)]
      dsimp only
      rw [if_pos rfl]
      rw [if_neg (by decide), if_neg (by decide), if_neg (by decide), if_neg (by decide)]
    exact (c9_create_funding_rule_validation
      ⟨"BACKUP_FUNDING", 1, 2, "09:00:00", "USD", 3, 4⟩ [1, 2] 7).2
      ⟨7, "BACKUP_FUNDING", 1, 2, "09:00:00", "USD", 0, 0⟩ hr rfl

/-- C2 amended: rule and manual-entry mutations trigger full resimulation,
but only rule *deletion* purges: `POST /funding-rules` and `POST
/accounts/{id}/entries` perform no purge at all — they only append to the
ledger while re-expanding all rules over the window and re-running the
scheduler — whereas `DELETE /funding-rules/{r}` first purges exactly that
rule's derived entries and then re-runs. -/
theorem c2_resimulation_amended :
    (∀ (rules : List FundingRule) (newRule : FundingRule) (meta : Option (ℤ × ℤ))
        (fuel : ℕ) (l l' : Ledger),
      create_funding_rule_run rules newRule meta fuel l = some l' →
      ∃ s, l' = l ++ s) ∧
    (∀ (rules : List FundingRule) (window : ℤ × ℤ) (account_id : ℕ) (amount : ℚ)
        (currency : String) (timestamp : ℤ) (description : String) (fuel : ℕ)
        (l l' : Ledger),
      create_entry_run rules window account_id amount currency timestamp description
          fuel l = some l' →
      ∃ s, l' = l ++ s) ∧
    (∀ (rules : List FundingRule) (rule_id : ℕ) (meta : Option (ℤ × ℤ)) (fuel : ℕ)
        (l l' : Ledger),
      delete_funding_rule_run rules rule_id meta fuel l = some l' →
      ∃ s, l' = l.filter (fun e => !(e.rule_id == some rule_id)) ++ s) := by
  refine ⟨?_, ?_, ?_⟩
  · intro rules newRule meta fuel l l' h
    cases meta with
    | none => cases h; exact ⟨[], (List.append_nil l).symm⟩
    | some w => exact simulateFuel_appends _ _ _ _ _ h
  · intro rules window a amt c ts desc fuel l l' h
    exact simulateFuel_appends _ _ _ _ _ h
  · intro rules rid meta fuel l l' h
    cases meta with
    | none => cases h; exact ⟨[], (List.append_nil _).symm⟩
    | some w => exact simulateFuel_appends _ _ _ _ _ h

/-- Witness for `c2_resimulation_amended`: a concrete funding-rule creation
with no metadata leaves the one-entry ledger exactly as it was (the
appended suffix is empty). -/
theorem c2_resimulation_amended_witness :
    ∃ s, ([⟨1, 5, "USD", "stale", 0, some 99⟩] : Ledger) =
      [⟨1, 5, "USD", "stale", 0, some 99⟩] ++ s :=
  c2_resimulation_amended.1 [] ⟨1, "TOPUP", 1, 2, "01:00:00", "USD", 0, 0⟩ none 0
    [⟨1, 5, "USD", "stale", 0, some 99⟩] [⟨1, 5, "USD", "stale", 0, some 99⟩] rfl

/-- C2 counterexample: a successful `POST /funding-rules` run (metadata
present, scheduler re-run to quiescence) leaves a pre-existing derived
entry — `rule_id = 99`, i.e. `rule_id IS NOT NULL` — in the ledger, so the
claimed purge of all derived entries does not happen.  (The new rule fires
at 01:00:00, outside the `[0, 0]` window, so the re-run itself writes
nothing.) -/
theorem c2_resimulation_counterexample :
    create_funding_rule_run [] ⟨1, "TOPUP", 1, 2, "01:00:00", "USD", 0, 0⟩
        (some (0, 0)) 5 [⟨1, 5, "USD", "stale", 0, some 99⟩] =
      some [⟨1, 5, "USD", "stale", 0, some 99⟩] ∧
    (⟨1, 5, "USD", "stale", 0, some 99⟩ : BalanceEntry).rule_id ≠ none := by
  constructor
  · have hexp : expandRules 0 0
        ([] ++ [(⟨1, "TOPUP", 1, 2, "01:00:00", "USD", 0, 0⟩ : FundingRule)]) = [] := by
      decide
    show simulateFuel
        (runnerListeners 0 0 ([] ++ [⟨1, "TOPUP", 1, 2, "01:00:00", "USD", 0, 0⟩])) 5
        (runnerQueue 0 0 ([] ++ [⟨1, "TOPUP", 1, 2, "01:00:00", "USD", 0, 0⟩]))
        [⟨1, 5, "USD", "stale", 0, some 99⟩] =
      some [⟨1, 5, "USD", "stale", 0, some 99⟩]
    rw [runnerListeners, runnerQueue, hexp]
    exact simulateFuel_nil _ 5 _
  · simp

/-- C1 amended: for every state reachable by successful ledger-mutating API
calls *other than account deletion*, and for each currency, the derived
entries (`rule_id ≠ null`) sum to 0; and every invocation of
`Topup.propagate` or `SweepOut.propagate` writes either nothing or exactly
one pair of entries with amounts Δ and −Δ, both tagged with the
propagator's `rule_id` (account deletion cascade-deletes one side of such
pairs, breaking the global sum — see the counterexample). -/
theorem c1_conservation_amended :
    (∀ l, ReachNoDelete l → ∀ c, derivedSum c l = 0) ∧
    (∀ (d : RuleParams) (l : Ledger),
      (topupPropagate d l).1 = [] ∨
      ∃ e1 e2, (topupPropagate d l).1 = [e1, e2] ∧ e1.amount + e2.amount = 0 ∧
        e1.rule_id = some d.rule_id ∧ e2.rule_id = some d.rule_id ∧
        e1.currency = d.currency ∧ e2.currency = d.currency) ∧
    (∀ (d : RuleParams) (l : Ledger),
      (sweepOutPropagate d l).1 = [] ∨
      ∃ e1 e2, (sweepOutPropagate d l).1 = [e1, e2] ∧ e1.amount + e2.amount = 0 ∧
        e1.rule_id = some d.rule_id ∧ e2.rule_id = some d.rule_id ∧
        e1.currency = d.currency ∧ e2.currency = d.currency) := by
  refine ⟨?_, ?_, ?_⟩
  · intro l h c
    exact (consInv_reachNoDelete l h).1 c
  · intro d l
    rw [topupPropagate_eq]
    dsimp only
    split_ifs
    · exact Or.inl rfl
    · exact Or.inr ⟨_, _, rfl, by ring, rfl, rfl, rfl, rfl⟩
  · intro d l
    rw [sweepOutPropagate_eq]
    dsimp only
    split_ifs
    · exact Or.inl rfl
    · exact Or.inr ⟨_, _, rfl, by ring, rfl, rfl, rfl, rfl⟩

/-- Witness for `c1_conservation_amended`: the empty ledger (a freshly
created simulation) is reachable without account deletion and conserves. -/
theorem c1_conservation_amended_witness : derivedSum "USD" [] = 0 :=
  c1_conservation_amended.1 [] ReachNoDelete.empty "USD"

/-- C1 counterexample: the conservation invariant fails on a state reached
purely by successful API calls.  Trace: create a simulation (empty ledger);
`POST /accounts/{1}/entries` posts a manual −50; `POST /funding-rules` adds
a TOPUP rule (target 1, source 2, threshold 100, target 100) whose re-run
writes the pair (source −150 @ t, target +150 @ t+30min); then
`DELETE /accounts/1` cascade-deletes account 1's entries, stranding the
source side: the sum over `rule_id ≠ null` in USD is −150 ≠ 0. -/
theorem c1_conservation_counterexample :
    ∃ l, Reach l ∧ derivedSum "USD" l ≠ 0 := by
  refine ⟨[⟨2, -150, "USD", topupDescription ⟨1, 1, 2, 0, "USD", 100, 100⟩, 0, some 1⟩],
    ?_, ?_⟩
  · have h0 : Reach [] := Reach.empty
    have h1 : Reach [⟨1, -50, "USD", "wire", 0, none⟩] := by
      refine Reach.create_entry_step [] (0, 0) 1 (-50) "USD" 0 "wire" 2 h0 ?_
      rfl
    have h2 : Reach [⟨1, -50, "USD", "wire", 0, none⟩,
        ⟨2, -150, "USD", topupDescription ⟨1, 1, 2, 0, "USD", 100, 100⟩, 0, some 1⟩,
        ⟨1, 150, "USD", topupDescription ⟨1, 1, 2, 0, "USD", 100, 100⟩, 1800, some 1⟩] := by
      refine Reach.create_funding_rule_step []
        ⟨1, "TOPUP", 1, 2, "00:00:00", "USD", 100, 100⟩ (some (0, 0)) 2 h1 ?_
      show simulateFuel
          (runnerListeners 0 0 ([] ++ [⟨1, "TOPUP", 1, 2, "00:00:00", "USD", 100, 100⟩])) 2
          (runnerQueue 0 0 ([] ++ [⟨1, "TOPUP", 1, 2, "00:00:00", "USD", 100, 100⟩]))
          [⟨1, -50, "USD", "wire", 0, none⟩] = some _
      have hexp : expandRules 0 0
          ([] ++ [(⟨1, "TOPUP", 1, 2, "00:00:00", "USD", 100, 100⟩ : FundingRule)]) =
          [.topup ⟨1, 1, 2, 0, "USD", 100, 100⟩] := by decide
      have hlist : buildListeners [.topup ⟨1, 1, 2, 0, "USD", 100, 100⟩] =
          [(1, 0, .topup ⟨1, 1, 2, 0, "USD", 100, 100⟩)] := by decide
      rw [runnerListeners, runnerQueue, hexp, hlist]
      have hprop : Propagator.propagate (.topup ⟨1, 1, 2, 0, "USD", 100, 100⟩)
          [⟨1, -50, "USD", "wire", 0, none⟩] =
          ([⟨2, -150, "USD", topupDescription ⟨1, 1, 2, 0, "USD", 100, 100⟩, 0, some 1⟩,
            ⟨1, 150, "USD", topupDescription ⟨1, 1, 2, 0, "USD", 100, 100⟩, 1800, some 1⟩],
           [⟨1, -50, "USD", "wire", 0, none⟩,
            ⟨2, -150, "USD", topupDescription ⟨1, 1, 2, 0, "USD", 100, 100⟩, 0, some 1⟩,
            ⟨1, 150, "USD", topupDescription ⟨1, 1, 2, 0, "USD", 100, 100⟩, 1800, some 1⟩]) := by
        show topupPropagate ⟨1, 1, 2, 0, "USD", 100, 100⟩ [⟨1, -50, "USD", "wire", 0, none⟩] = _
        rw [topupPropagate_eq]
        norm_num [get_balance, get_balance_at_timestamp, ruleFilterMatches,
          List.filter_cons, topupDeltaSpec]
      rw [simulateFuel_succ_cons, hprop]
      have henq : enqueueFromEntries [(1, 0, .topup ⟨1, 1, 2, 0, "USD", 100, 100⟩)]
          [⟨2, -150, "USD", topupDescription ⟨1, 1, 2, 0, "USD", 100, 100⟩, 0, some 1⟩,
           ⟨1, 150, "USD", topupDescription ⟨1, 1, 2, 0, "USD", 100, 100⟩, 1800, some 1⟩] =
          [] := by decide
      rw [henq]
      exact simulateFuel_nil _ _ _
    have h3 := Reach.delete_account_step 1 h2
    have hdel : delete_account_run 1
        [⟨1, -50, "USD", "wire", 0, none⟩,
         ⟨2, -150, "USD", topupDescription ⟨1, 1, 2, 0, "USD", 100, 100⟩, 0, some 1⟩,
         ⟨1, 150, "USD", topupDescription ⟨1, 1, 2, 0, "USD", 100, 100⟩, 1800, some 1⟩] =
        [⟨2, -150, "USD", topupDescription ⟨1, 1, 2, 0, "USD", 100, 100⟩, 0, some 1⟩] := by
      simp [delete_account_run, List.filter_cons]
    rw [hdel] at h3
    exact h3
  · norm_num [derivedSum, List.filter_cons]

/-- C6 amended: idempotence at fixed point holds only conditionally.
Immediately after a `Topup.propagate` whose inputs satisfy
`target_balance ≤ threshold` or `prior ≤ target_balance − threshold`
(the claim's Δ-cases other than a *partial* unwind), re-running it writes
nothing (Δ = 0); likewise re-running a `SweepOut` writes nothing
(|Δ| < 1e-9) unless it was a partial reversal
(`source_balance < threshold` with `0 > prior` and
`−prior > threshold − source_balance`).  In the excluded partial cases,
quiescence does not imply idempotence because the unwinding write lands at
`timestamp + 30min` and so never re-enqueues its own rule — see the
counterexample. -/
theorem c6_idempotence_amended :
    (∀ (d : RuleParams) (l : Ledger),
      d.source_account_id ≠ d.target_account_id →
      (get_balance l d.target_account_id d.timestamp d.currency none ≤ d.threshold ∨
       get_balance_at_timestamp l d.target_account_id (d.timestamp + 1800) d.currency
          (some d.rule_id) ≤
         get_balance l d.target_account_id d.timestamp d.currency none - d.threshold) →
      topupPropagate d ((topupPropagate d l).2) = ([], (topupPropagate d l).2)) ∧
    (∀ (d : RuleParams) (l : Ledger),
      d.source_account_id ≠ d.target_account_id →
      (d.threshold ≤ get_balance l d.source_account_id d.timestamp d.currency none ∨
       0 ≤ get_balance_at_timestamp l d.source_account_id (d.timestamp + 1800)
          d.currency (some d.rule_id) ∨
       -(get_balance_at_timestamp l d.source_account_id (d.timestamp + 1800) d.currency
          (some d.rule_id)) ≤
         d.threshold - get_balance l d.source_account_id d.timestamp d.currency none) →
      sweepOutPropagate d ((sweepOutPropagate d l).2) = ([], (sweepOutPropagate d l).2)) := by
  constructor
  · intro d l hne hcond
    by_cases h0 : topupDeltaSpec
        (get_balance l d.target_account_id d.timestamp d.currency none)
        (get_balance_at_timestamp l d.target_account_id (d.timestamp + 1800) d.currency
          (some d.rule_id)) d.threshold d.target_amount = 0
    · rw [topupPropagate_delta_zero d l h0]
      exact topupPropagate_delta_zero d l h0
    · rw [topupPropagate_delta_ne d l h0]
      dsimp only
      apply topupPropagate_delta_zero
      obtain ⟨hb, hp⟩ := topup_post_balances d l
        (topupDeltaSpec (get_balance l d.target_account_id d.timestamp d.currency none)
          (get_balance_at_timestamp l d.target_account_id (d.timestamp + 1800) d.currency
            (some d.rule_id)) d.threshold d.target_amount) hne
      rw [hb, hp]
      generalize hTB : get_balance l d.target_account_id d.timestamp d.currency none =
        tb at h0 hcond ⊢
      generalize hPR : get_balance_at_timestamp l d.target_account_id
        (d.timestamp + 1800) d.currency (some d.rule_id) = pr at h0 hcond ⊢
      rcases lt_trichotomy tb d.threshold with hlt | heq | hgt
      · rw [topupDeltaSpec_of_lt _ _ _ _ hlt, topupDeltaSpec_of_lt _ _ _ _ hlt]
        ring
      · exact absurd (topupDeltaSpec_of_eq _ pr _ d.target_amount heq) h0
      · rcases hcond with hc1 | hc2
        · linarith
        · have hmin : min pr (tb - d.threshold) = pr := min_eq_left hc2
          rw [topupDeltaSpec_of_gt _ _ _ _ hgt, topupDeltaSpec_of_gt _ _ _ _ hgt, hmin]
          have h1 : pr + -pr = 0 := by ring
          rw [h1, min_eq_left (by linarith : (0 : ℚ) ≤ tb - d.threshold)]
          exact neg_zero
  · intro d l hne hcond
    by_cases hsmall : |sweepOutDeltaSpec
        (get_balance l d.source_account_id d.timestamp d.currency none)
        (get_balance_at_timestamp l d.source_account_id (d.timestamp + 1800) d.currency
          (some d.rule_id)) d.threshold d.target_amount| < 1 / 1000000000
    · rw [sweepOutPropagate_delta_small d l hsmall]
      exact sweepOutPropagate_delta_small d l hsmall
    · rw [sweepOutPropagate_delta_large d l hsmall]
      dsimp only
      apply sweepOutPropagate_delta_small
      obtain ⟨hb, hp⟩ := sweep_post_balances d l
        (sweepOutDeltaSpec (get_balance l d.source_account_id d.timestamp d.currency none)
          (get_balance_at_timestamp l d.source_account_id (d.timestamp + 1800) d.currency
            (some d.rule_id)) d.threshold d.target_amount) hne
      rw [hb, hp]
      generalize hSB : get_balance l d.source_account_id d.timestamp d.currency none =
        sb at hsmall hcond ⊢
      generalize hPR : get_balance_at_timestamp l d.source_account_id
        (d.timestamp + 1800) d.currency (some d.rule_id) = pr at hsmall hcond ⊢
      have hzero : sweepOutDeltaSpec sb
          (pr + sweepOutDeltaSpec sb pr d.threshold d.target_amount) d.threshold
          d.target_amount = 0 := by
        rcases lt_trichotomy sb d.threshold with hlt | heq | hgt
        · rcases hcond with hc1 | hc2 | hc3
          · linarith
          · refine absurd ?_ hsmall
            rw [sweepOutDeltaSpec_of_lt_nonneg _ _ _ _ hlt hc2]
            norm_num
          · by_cases hpr : pr < 0
            · have hmin : min (-pr) (d.threshold - sb) = -pr := min_eq_left hc3
              rw [sweepOutDeltaSpec_of_lt_neg _ _ _ _ hlt hpr, hmin]
              have h1 : pr + -pr = 0 := by ring
              rw [h1]
              exact sweepOutDeltaSpec_of_lt_nonneg _ _ _ _ hlt le_rfl
            · refine absurd ?_ hsmall
              rw [sweepOutDeltaSpec_of_lt_nonneg _ _ _ _ hlt (by linarith)]
              norm_num
        · refine absurd ?_ hsmall
          rw [sweepOutDeltaSpec_of_eq _ _ _ _ heq]
          norm_num
        · rw [sweepOutDeltaSpec_of_gt _ _ _ _ hgt, sweepOutDeltaSpec_of_gt _ _ _ _ hgt]
          ring
      rw [hzero]
      norm_num

/-- Witness for `c6_idempotence_amended`: after the topup of
`c3_topup_propagate_witness` fires on the empty ledger (balance 0 below
threshold 100), re-running it writes nothing. -/
theorem c6_idempotence_amended_witness :
    topupPropagate ⟨1, 1, 2, 0, "USD", 100, 200⟩
        ((topupPropagate ⟨1, 1, 2, 0, "USD", 100, 200⟩ []).2) =
      ([], (topupPropagate ⟨1, 1, 2, 0, "USD", 100, 200⟩ []).2) := by
  refine c6_idempotence_amended.1 ⟨1, 1, 2, 0, "USD", 100, 200⟩ [] (by decide)
    (Or.inl ?_)
  show (0 : ℚ) ≤ 100
  norm_num

/-- C6 counterexample: a full scheduler run (fuel suffices; the worklist
empties, i.e. quiescence) after which re-running the run's one rule
propagator still writes two entries.  The TOPUP rule (threshold 100, target
200) fires with target balance 150 > 100 and prior 150 > 50, performs a
partial unwind of Δ = −50 landing at t+30min, and never re-fires; on the
resulting ledger its Δ is again −50 ≠ 0. -/
theorem c6_idempotence_counterexample :
    ∃ l' : Ledger,
      simulateFuel (runnerListeners 0 0 [⟨1, "TOPUP", 1, 2, "00:00:00", "USD", 100, 200⟩])
          5 (runnerQueue 0 0 [⟨1, "TOPUP", 1, 2, "00:00:00", "USD", 100, 200⟩])
          [⟨1, 50, "USD", "Initial balance", -100, none⟩,
           ⟨2, -150, "USD", "prior topup", 0, some 1⟩,
           ⟨1, 150, "USD", "prior topup", 1800, some 1⟩,
           ⟨1, 100, "USD", "Manual entry", -50, none⟩] = some l' ∧
      (topupPropagate ⟨1, 1, 2, 0, "USD", 100, 200⟩ l').1 ≠ [] := by
  refine ⟨[⟨1, 50, "USD", "Initial balance", -100, none⟩,
           ⟨2, -150, "USD", "prior topup", 0, some 1⟩,
           ⟨1, 150, "USD", "prior topup", 1800, some 1⟩,
           ⟨1, 100, "USD", "Manual entry", -50, none⟩,
           ⟨2, 50, "USD", topupDescription ⟨1, 1, 2, 0, "USD", 100, 200⟩, 0, some 1⟩,
           ⟨1, -50, "USD", topupDescription ⟨1, 1, 2, 0, "USD", 100, 200⟩, 1800, some 1⟩],
    ?_, ?_⟩
  · have hexp : expandRules 0 0 [(⟨1, "TOPUP", 1, 2, "00:00:00", "USD", 100, 200⟩ :
        FundingRule)] = [.topup ⟨1, 1, 2, 0, "USD", 100, 200⟩] := by decide
    have hlist : buildListeners [.topup ⟨1, 1, 2, 0, "USD", 100, 200⟩] =
        [(1, 0, .topup ⟨1, 1, 2, 0, "USD", 100, 200⟩)] := by decide
    rw [runnerListeners, runnerQueue, hexp, hlist]
    have hprop : Propagator.propagate (.topup ⟨1, 1, 2, 0, "USD", 100, 200⟩)
        [⟨1, 50, "USD", "Initial balance", -100, none⟩,
         ⟨2, -150, "USD", "prior topup", 0, some 1⟩,
         ⟨1, 150, "USD", "prior topup", 1800, some 1⟩,
         ⟨1, 100, "USD", "Manual entry", -50, none⟩] =
        ([⟨2, 50, "USD", topupDescription ⟨1, 1, 2, 0, "USD", 100, 200⟩, 0, some 1⟩,
          ⟨1, -50, "USD", topupDescription ⟨1, 1, 2, 0, "USD", 100, 200⟩, 1800, some 1⟩],
         [⟨1, 50, "USD", "Initial balance", -100, none⟩,
          ⟨2, -150, "USD", "prior topup", 0, some 1⟩,
          ⟨1, 150, "USD", "prior topup", 1800, some 1⟩,
          ⟨1, 100, "USD", "Manual entry", -50, none⟩,
          ⟨2, 50, "USD", topupDescription ⟨1, 1, 2, 0, "USD", 100, 200⟩, 0, some 1⟩,
          ⟨1, -50, "USD", topupDescription ⟨1, 1, 2, 0, "USD", 100, 200⟩, 1800,
            some 1⟩]) := by
      show topupPropagate ⟨1, 1, 2, 0, "USD", 100, 200⟩ _ = _
      rw [topupPropagate_eq]
      norm_num [get_balance, get_balance_at_timestamp, ruleFilterMatches,
        List.filter_cons, topupDeltaSpec, min_def]
    rw [simulateFuel_succ_cons, hprop]
    have henq : enqueueFromEntries [(1, 0, .topup ⟨1, 1, 2, 0, "USD", 100, 200⟩)]
        [⟨2, 50, "USD", topupDescription ⟨1, 1, 2, 0, "USD", 100, 200⟩, 0, some 1⟩,
         ⟨1, -50, "USD", topupDescription ⟨1, 1, 2, 0, "USD", 100, 200⟩, 1800, some 1⟩] =
        [] := by decide
    rw [henq]
    exact simulateFuel_nil _ _ _
  · rw [topupPropagate_eq]
    norm_num [get_balance, get_balance_at_timestamp, ruleFilterMatches,
      List.filter_cons, topupDeltaSpec, min_def]
    exact List.cons_ne_nil _ _

/-- C5 amended: the spec's supporting invariant is real — re-firing a
propagator whose balance inputs are unchanged since a run that wrote
nothing again writes nothing, and an empty write enqueues no new work —
but it does not yield termination: `SimulationRunner.simulate` does not
terminate for every finite rule set (see the counterexample, where two
TOPUP rules at the same firing instant, each drawing on the other's
target, grow the worklist forever). -/
theorem c5_termination_amended :
    (∀ (p : Propagator) (l l2 : Ledger),
      p.propagate l = ([], l) → balanceInputs p l2 = balanceInputs p l →
      p.propagate l2 = ([], l2)) ∧
    (∀ L : Listeners, enqueueFromEntries L [] = []) := by
  constructor
  · intro p l l2 h0 hinp
    cases p with
    | manualEntry a amt c ts desc =>
        simp [Propagator.propagate, manualEntryPropagate] at h0
    | topup d =>
        simp only [balanceInputs, RuleParams.funding_timestamp, Prod.mk.injEq] at hinp
        obtain ⟨h1, h2⟩ := hinp
        by_cases hΔ : topupDeltaSpec
            (get_balance l d.target_account_id d.timestamp d.currency none)
            (get_balance_at_timestamp l d.target_account_id (d.timestamp + 1800)
              d.currency (some d.rule_id)) d.threshold d.target_amount = 0
        · show topupPropagate d l2 = ([], l2)
          apply topupPropagate_delta_zero
          rw [h1, h2]
          exact hΔ
        · rw [Propagator.propagate, topupPropagate_delta_ne d l hΔ] at h0
          simp at h0
    | sweepOut d =>
        simp only [balanceInputs, RuleParams.funding_timestamp, Prod.mk.injEq] at hinp
        obtain ⟨h1, h2⟩ := hinp
        by_cases hΔ : |sweepOutDeltaSpec
            (get_balance l d.source_account_id d.timestamp d.currency none)
            (get_balance_at_timestamp l d.source_account_id (d.timestamp + 1800)
              d.currency (some d.rule_id)) d.threshold d.target_amount| < 1 / 1000000000
        · show sweepOutPropagate d l2 = ([], l2)
          apply sweepOutPropagate_delta_small
          rw [h1, h2]
          exact hΔ
        · rw [Propagator.propagate, sweepOutPropagate_delta_large d l hΔ] at h0
          simp at h0
  · intro L
    rfl

/-- Witness for `c5_termination_amended`: a topup whose target sits exactly
at its threshold writes nothing, and re-running it against a different
ledger with the same balance inputs again writes nothing. -/
theorem c5_termination_amended_witness :
    Propagator.propagate (.topup ⟨1, 1, 2, 0, "USD", 0, 0⟩)
        [⟨3, 7, "USD", "other", 0, none⟩] =
      ([], [⟨3, 7, "USD", "other", 0, none⟩]) := by
  refine c5_termination_amended.1 (.topup ⟨1, 1, 2, 0, "USD", 0, 0⟩) []
    [⟨3, 7, "USD", "other", 0, none⟩] ?_ ?_
  · show topupPropagate ⟨1, 1, 2, 0, "USD", 0, 0⟩ [] = ([], [])
    rw [topupPropagate_eq]
    norm_num [get_balance, get_balance_at_timestamp, topupDeltaSpec]
  · show balanceInputs _ [⟨3, 7, "USD", "other", 0, none⟩] = balanceInputs _ []
    simp only [balanceInputs]
    norm_num [get_balance, get_balance_at_timestamp, ruleFilterMatches, List.filter_cons]

/-!
### A diverging configuration for the scheduler

Two TOPUP rules at the same firing instant, each rule's source account the
other's target (both pass the create-route validation: distinct accounts,
`target_amount ≥ threshold`).  Each fire debits the other rule's watched
account at the shared firing time, re-enqueueing it forever.
-/

def c5P1 : Propagator := .topup ⟨1, 1, 2, 0, "USD", 100, 100⟩

def c5P2 : Propagator := .topup ⟨2, 2, 1, 0, "USD", 100, 100⟩

def c5L : Listeners := [(1, 0, c5P1), (2, 0, c5P2)]

def c5E1 : BalanceEntry :=
  ⟨2, -200, "USD", topupDescription ⟨1, 1, 2, 0, "USD", 100, 100⟩, 0, some 1⟩

def c5E2 : BalanceEntry :=
  ⟨1, 200, "USD", topupDescription ⟨1, 1, 2, 0, "USD", 100, 100⟩, 1800, some 1⟩

def c5E3 : BalanceEntry :=
  ⟨1, -200, "USD", topupDescription ⟨2, 2, 1, 0, "USD", 100, 100⟩, 0, some 2⟩

def c5E4 : BalanceEntry :=
  ⟨2, 200, "USD", topupDescription ⟨2, 2, 1, 0, "USD", 100, 100⟩, 1800, some 2⟩

def c5F1 : BalanceEntry :=
  ⟨2, -100, "USD", topupDescription ⟨1, 1, 2, 0, "USD", 100, 100⟩, 0, some 1⟩

def c5F2 : BalanceEntry :=
  ⟨1, 100, "USD", topupDescription ⟨1, 1, 2, 0, "USD", 100, 100⟩, 1800, some 1⟩

/-- Loop invariant of the diverging run, holding whenever the worklist is
exactly `[c5P1]`: after `k` periodic rounds the four balance readings the
two rules make are as below, so each rule keeps computing Δ = 200. -/
def c5Inv (k : ℕ) (l : Ledger) : Prop :=
  get_balance l 1 0 "USD" none = -(200 * ((k : ℚ) + 1)) ∧
  get_balance_at_timestamp l 1 1800 "USD" (some 1) = 100 + 200 * (k : ℚ) ∧
  get_balance l 2 0 "USD" none = -(100 + 200 * (k : ℚ)) ∧
  get_balance_at_timestamp l 2 1800 "USD" (some 2) = 200 * ((k : ℚ) + 1)

theorem c5_p1_fire (k : ℕ) (l : Ledger) (h : c5Inv k l) :
    Propagator.propagate c5P1 l = ([c5E1, c5E2], l ++ [c5E1, c5E2]) := by
  obtain ⟨h1, h2, h3, h4⟩ := h
  have hk : (0 : ℚ) ≤ (k : ℚ) := Nat.cast_nonneg k
  have hΔ : topupDeltaSpec (get_balance l 1 0 "USD" none)
      (get_balance_at_timestamp l 1 1800 "USD" (some 1)) 100 100 = 200 := by
    rw [h1, h2, topupDeltaSpec_of_lt _ _ _ _ (by linarith)]
    ring
  have hne : topupDeltaSpec (get_balance l 1 0 "USD" none)
      (get_balance_at_timestamp l 1 1800 "USD" (some 1)) 100 100 ≠ 0 := by
    rw [hΔ]
    norm_num
  have hfire := topupPropagate_delta_ne ⟨1, 1, 2, 0, "USD", 100, 100⟩ l hne
  dsimp only at hfire
  rw [show (0 : ℤ) + 1800 = 1800 from rfl] at hfire
  rw [hΔ] at hfire
  exact hfire

theorem c5_p2_fire (k : ℕ) (l : Ledger)
    (h3 : get_balance l 2 0 "USD" none = -(300 + 200 * (k : ℚ)))
    (h4 : get_balance_at_timestamp l 2 1800 "USD" (some 2) = 200 * ((k : ℚ) + 1)) :
    Propagator.propagate c5P2 l = ([c5E3, c5E4], l ++ [c5E3, c5E4]) := by
  have hk : (0 : ℚ) ≤ (k : ℚ) := Nat.cast_nonneg k
  have hΔ : topupDeltaSpec (get_balance l 2 0 "USD" none)
      (get_balance_at_timestamp l 2 1800 "USD" (some 2)) 100 100 = 200 := by
    rw [h3, h4, topupDeltaSpec_of_lt _ _ _ _ (by linarith)]
    ring
  have hne : topupDeltaSpec (get_balance l 2 0 "USD" none)
      (get_balance_at_timestamp l 2 1800 "USD" (some 2)) 100 100 ≠ 0 := by
    rw [hΔ]
    norm_num
  have hfire := topupPropagate_delta_ne ⟨2, 2, 1, 0, "USD", 100, 100⟩ l hne
  dsimp only at hfire
  rw [show (0 : ℤ) + 1800 = 1800 from rfl] at hfire
  rw [hΔ] at hfire
  exact hfire

theorem c5_enq12 : enqueueFromEntries c5L [c5E1, c5E2] = [c5P2] := by decide

theorem c5_enq34 : enqueueFromEntries c5L [c5E3, c5E4] = [c5P1] := by decide

theorem c5_enqF : enqueueFromEntries c5L [c5F1, c5F2] = [c5P2] := by decide

/-- One period of the loop: with the invariant at `k` and worklist `[c5P1]`,
two scheduler iterations return to worklist `[c5P1]` with the invariant at
`k + 1` (and four more ledger entries). -/
theorem c5_two_step (k : ℕ) (l : Ledger) (h : c5Inv k l) (n : ℕ) :
    simulateFuel c5L (n + 2) [c5P1] l =
      simulateFuel c5L n [c5P1] ((l ++ [c5E1, c5E2]) ++ [c5E3, c5E4]) ∧
    c5Inv (k + 1) ((l ++ [c5E1, c5E2]) ++ [c5E3, c5E4]) := by
  obtain ⟨h1, h2, h3, h4⟩ := h
  have g_a : get_balance [c5E1, c5E2] 1 0 "USD" none = 0 := by
    norm_num [get_balance, ruleFilterMatches, List.filter_cons, c5E1, c5E2]
  have g_b : get_balance_at_timestamp [c5E1, c5E2] 1 1800 "USD" (some 1) = 200 := by
    norm_num [get_balance_at_timestamp, ruleFilterMatches, List.filter_cons, c5E1, c5E2]
  have g_c : get_balance [c5E1, c5E2] 2 0 "USD" none = -200 := by
    norm_num [get_balance, ruleFilterMatches, List.filter_cons, c5E1, c5E2]
  have g_d : get_balance_at_timestamp [c5E1, c5E2] 2 1800 "USD" (some 2) = 0 := by
    norm_num [get_balance_at_timestamp, ruleFilterMatches, List.filter_cons, c5E1, c5E2]
  have g_e : get_balance [c5E3, c5E4] 1 0 "USD" none = -200 := by
    norm_num [get_balance, ruleFilterMatches, List.filter_cons, c5E3, c5E4]
  have g_f : get_balance_at_timestamp [c5E3, c5E4] 1 1800 "USD" (some 1) = 0 := by
    norm_num [get_balance_at_timestamp, ruleFilterMatches, List.filter_cons, c5E3, c5E4]
  have g_g : get_balance [c5E3, c5E4] 2 0 "USD" none = 0 := by
    norm_num [get_balance, ruleFilterMatches, List.filter_cons, c5E3, c5E4]
  have g_h : get_balance_at_timestamp [c5E3, c5E4] 2 1800 "USD" (some 2) = 200 := by
    norm_num [get_balance_at_timestamp, ruleFilterMatches, List.filter_cons, c5E3, c5E4]
  have hfire1 := c5_p1_fire k l ⟨h1, h2, h3, h4⟩
  have hmid3 : get_balance (l ++ [c5E1, c5E2]) 2 0 "USD" none =
      -(300 + 200 * (k : ℚ)) := by
    rw [get_balance_append, h3, g_c]
    ring
  have hmid4 : get_balance_at_timestamp (l ++ [c5E1, c5E2]) 2 1800 "USD" (some 2) =
      200 * ((k : ℚ) + 1) := by
    rw [get_balance_at_timestamp_append, h4, g_d]
    ring
  have hfire2 := c5_p2_fire k (l ++ [c5E1, c5E2]) hmid3 hmid4
  constructor
  · show simulateFuel c5L (n + 1 + 1) [c5P1] l = _
    rw [simulateFuel_succ_cons, hfire1]
    dsimp only
    rw [c5_enq12, List.nil_append]
    rw [simulateFuel_succ_cons, hfire2]
    dsimp only
    rw [c5_enq34, List.nil_append]
  · refine ⟨?_, ?_, ?_, ?_⟩
    · rw [get_balance_append, get_balance_append, h1, g_a, g_e]
      push_cast
      ring
    · rw [get_balance_at_timestamp_append, get_balance_at_timestamp_append, h2, g_b, g_f]
      push_cast
      ring
    · rw [get_balance_append, get_balance_append, h3, g_c, g_g]
      push_cast
      ring
    · rw [get_balance_at_timestamp_append, get_balance_at_timestamp_append, h4, g_d, g_h]
      push_cast
      ring

/-- No amount of fuel empties the worklist from an invariant state. -/
theorem c5_no_fuel_suffices :
    ∀ (n k : ℕ) (l : Ledger), c5Inv k l → simulateFuel c5L n [c5P1] l = none := by
  intro n
  induction n using Nat.strong_induction_on with
  | _ n ih =>
    intro k l h
    cases n with
    | zero => rfl
    | succ m =>
      cases m with
      | zero =>
          have hfire1 := c5_p1_fire k l h
          show simulateFuel c5L (0 + 1) [c5P1] l = none
          rw [simulateFuel_succ_cons, hfire1]
          dsimp only
          rw [c5_enq12, List.nil_append]
          rfl
      | succ m2 =>
          obtain ⟨hstep, hinv⟩ := c5_two_step k l h m2
          show simulateFuel c5L (m2 + 2) [c5P1] l = none
          rw [hstep]
          exact ih m2 (by omega) (k + 1) _ hinv

/-- C5 counterexample: `SimulationRunner.simulate` does not terminate for the
two-rule configuration above — no fuel bound makes the worklist-driven loop
finish.  The first rule fires (Δ = 100), waking the second (Δ = 200, waking
the first), after which every round recomputes Δ = 200 and re-enqueues the
other rule forever. -/
theorem c5_termination_counterexample :
    ¬ ∃ (fuel : ℕ) (l' : Ledger),
      simulateFuel
        (runnerListeners 0 0
          [⟨1, "TOPUP", 1, 2, "00:00:00", "USD", 100, 100⟩,
           ⟨2, "TOPUP", 2, 1, "00:00:00", "USD", 100, 100⟩]) fuel
        (runnerQueue 0 0
          [⟨1, "TOPUP", 1, 2, "00:00:00", "USD", 100, 100⟩,
           ⟨2, "TOPUP", 2, 1, "00:00:00", "USD", 100, 100⟩]) [] = some l' := by
  rintro ⟨fuel, l', h⟩
  have hq : runnerQueue 0 0
      [⟨1, "TOPUP", 1, 2, "00:00:00", "USD", 100, 100⟩,
       ⟨2, "TOPUP", 2, 1, "00:00:00", "USD", 100, 100⟩] = [c5P1, c5P2] := by decide
  have hl : runnerListeners 0 0
      [⟨1, "TOPUP", 1, 2, "00:00:00", "USD", 100, 100⟩,
       ⟨2, "TOPUP", 2, 1, "00:00:00", "USD", 100, 100⟩] = c5L := by decide
  rw [hq, hl] at h
  have hfa : Propagator.propagate c5P1 [] = ([c5F1, c5F2], [c5F1, c5F2]) := by
    show topupPropagate ⟨1, 1, 2, 0, "USD", 100, 100⟩ [] = _
    rw [topupPropagate_eq]
    norm_num [get_balance, get_balance_at_timestamp, topupDeltaSpec, c5F1, c5F2]
  have hfb : Propagator.propagate c5P2 [c5F1, c5F2] =
      ([c5E3, c5E4], [c5F1, c5F2] ++ [c5E3, c5E4]) := by
    show topupPropagate ⟨2, 2, 1, 0, "USD", 100, 100⟩ [c5F1, c5F2] = _
    rw [topupPropagate_eq]
    norm_num [get_balance, get_balance_at_timestamp, ruleFilterMatches,
      List.filter_cons, topupDeltaSpec, c5F1, c5F2, c5E3, c5E4]
  have hfc : Propagator.propagate c5P2 ([c5F1, c5F2] ++ [c5E3, c5E4]) =
      ([], [c5F1, c5F2] ++ [c5E3, c5E4]) := by
    show topupPropagate ⟨2, 2, 1, 0, "USD", 100, 100⟩ _ = _
    apply topupPropagate_delta_zero
    norm_num [get_balance, get_balance_at_timestamp, ruleFilterMatches,
      List.filter_cons, topupDeltaSpec, c5F1, c5F2, c5E3, c5E4]
  have hinv0 : c5Inv 0 ([c5F1, c5F2] ++ [c5E3, c5E4]) := by
    refine ⟨?_, ?_, ?_, ?_⟩ <;>
      norm_num [get_balance, get_balance_at_timestamp, ruleFilterMatches,
        List.filter_cons, c5F1, c5F2, c5E3, c5E4]
  cases fuel with
  | zero =>
      rw [simulateFuel_zero_cons] at h
      exact Option.noConfusion h
  | succ f1 =>
      rw [simulateFuel_succ_cons, hfa] at h
      dsimp only at h
      rw [c5_enqF, List.cons_append, List.nil_append] at h
      cases f1 with
      | zero =>
          rw [simulateFuel_zero_cons] at h
          exact Option.noConfusion h
      | succ f2 =>
          rw [simulateFuel_succ_cons, hfb] at h
          dsimp only at h
          rw [c5_enq34, List.cons_append, List.nil_append] at h
          cases f2 with
          | zero =>
              rw [simulateFuel_zero_cons] at h
              exact Option.noConfusion h
          | succ f3 =>
              rw [simulateFuel_succ_cons, hfc] at h
              dsimp only at h
              rw [show enqueueFromEntries c5L ([] : List BalanceEntry) = [] from rfl,
                List.append_nil] at h
              rw [c5_no_fuel_suffices f3 0 _ hinv0] at h
              exact Option.noConfusion h

end BankSim
